import Mathlib

/-!
Verification development for the EchoSync (ESP) multiplayer game protocol.

This file gives a shallow embedding, in Lean 4, of the core of the
repository's Python sources:

* `ESP_config.py` — the packet codec (header packing, CRC-32 integrity
  digest, fragmentation in `build_packet`, verification in `parse_packet`),
  the payload builders and parsers, and the fragment reassembler
  (`FragmentManager.add_fragment`);
* `server.py` — the server state (`ESPServerProtocol`) and its handlers
  (`handle_init`, `handle_create_room`, `handle_join_room`,
  `handle_leave_room`, `handle_list_rooms`, `handle_event`, `update_cell`,
  `handle_updates_ack`, `handle_snapshot_ack`, `handle_disconnect`,
  `send_updates_to_all`, `retransmit`, and the `send` helper);
* `client.py` — the part of the client state machine that reconciles
  UPDATES packets (`update_cell`, `handle_updates`, `send_updates_ack`,
  and the client `send` helper).

Modelling conventions:

* Python `bytes` values are `List Nat` with every element below 256.
* Machine integers are `Nat` (struct fields are encoded modulo their width
  by the byte encoders, matching `struct.pack`'s behaviour on in-range
  values; theorems carry explicit range hypotheses).
* Python dictionaries are association lists with unique keys, in insertion
  order (`dlookup`/`dset`/`ddel` below).
* Calls to `time.time_ns()` are modelled by oracle parameters
  (`ts : Nat → Nat` gives the timestamp used for the i-th built fragment);
  the random colour sampling of `handle_join_room` is modelled by a colour
  parameter.
* Python exceptions are modelled with `Except PyErr`; a handler returns the
  state as mutated up to the point of the raise, matching the fact that the
  server's task loop catches and logs exceptions, keeping partial mutations.
* Socket transmission (`sock.sendto`) is external I/O and is not part of
  the state; note that in the sources every `sendto` is wrapped in
  `try/except: pass`, so its outcome never influences the state anyway.
-/

/-! ## Big-endian byte encoders and readers (struct.pack / struct.unpack "!") -/

/-- Big-endian 2-byte encoding of `n % 2^16` (struct format `H`). -/
def be2 (n : Nat) : List Nat := [n / 2 ^ 8 % 256, n % 256]

/-- Big-endian 4-byte encoding of `n % 2^32` (struct format `I`). -/
def be4 (n : Nat) : List Nat :=
  [n / 2 ^ 24 % 256, n / 2 ^ 16 % 256, n / 2 ^ 8 % 256, n % 256]

/-- Big-endian 8-byte encoding of `n % 2^64` (struct format `Q`). -/
def be8 (n : Nat) : List Nat :=
  [n / 2 ^ 56 % 256, n / 2 ^ 48 % 256, n / 2 ^ 40 % 256, n / 2 ^ 32 % 256,
   n / 2 ^ 24 % 256, n / 2 ^ 16 % 256, n / 2 ^ 8 % 256, n % 256]

/-- Read a big-endian 2-byte integer from the first two bytes of a list. -/
def rd2 (l : List Nat) : Nat := l.getD 0 0 * 2 ^ 8 + l.getD 1 0

/-- Read a big-endian 4-byte integer from the first four bytes of a list. -/
def rd4 (l : List Nat) : Nat :=
  l.getD 0 0 * 2 ^ 24 + l.getD 1 0 * 2 ^ 16 + l.getD 2 0 * 2 ^ 8 + l.getD 3 0

/-- Read a big-endian 8-byte integer from the first eight bytes of a list. -/
def rd8 (l : List Nat) : Nat :=
  l.getD 0 0 * 2 ^ 56 + l.getD 1 0 * 2 ^ 48 + l.getD 2 0 * 2 ^ 40 +
  l.getD 3 0 * 2 ^ 32 + l.getD 4 0 * 2 ^ 24 + l.getD 5 0 * 2 ^ 16 +
  l.getD 6 0 * 2 ^ 8 + l.getD 7 0

/-! ## CRC-32 (zlib.crc32)

`compute_checksum` in `ESP_config.py` calls `zlib.crc32`, i.e. the standard
CRC-32 (polynomial 0xEDB88320 in reflected form, initial value 0xFFFFFFFF,
final complement), processed byte by byte. -/

/-- The reflected CRC-32 polynomial. -/
def CRC_POLY : Nat := 0xEDB88320

/-- One shift step of the CRC-32 register. -/
def crcBit (s : Nat) : Nat :=
  if s &&& 1 = 1 then (s >>> 1) ^^^ CRC_POLY else s >>> 1

/-- Iterate `crcBit` `n` times. -/
def crcBitN : Nat → Nat → Nat
  | 0, s => s
  | n + 1, s => crcBitN n (crcBit s)

/-- Feed one byte into the CRC-32 register. -/
def crcByte (s b : Nat) : Nat := crcBitN 8 (s ^^^ b)

/-- Feed a byte list into the CRC-32 register. -/
def crc_update (s : Nat) (l : List Nat) : Nat := l.foldl crcByte s

/-- CRC-32 of a byte list, as returned by `zlib.crc32` (already a 32-bit
value, so the source's `& 0xFFFFFFFF` in `compute_checksum` is a no-op). -/
def crc32 (l : List Nat) : Nat := crc_update 0xFFFFFFFF l ^^^ 0xFFFFFFFF

/-! ## Protocol constants (ESP_config.py) -/

/-- The four bytes of `PROTOCOL_ID = b'ESP1'`. -/
def PROTOCOL_ID : List Nat := [69, 83, 80, 49]

def ESP_VERSION : Nat := 1

def GRID_N : Nat := 20
def TOTAL_CELLS : Nat := GRID_N * GRID_N
def HEADER_SIZE : Nat := 32
def MAX_PACKET : Nat := 1200
def SNAPSHOT_PAYLOAD_LIMIT : Nat := MAX_PACKET - HEADER_SIZE
def REDUNDANT_K_PACKETS : Nat := 3
def REDUNDANT_K_UPDATES : Nat := 3
def LAST_K_UPDATES : Nat := 10
def MAX_TRANSMISSION_RETRIES : Nat := 5
def REQUIRED_ROOM_PLAYERS : Nat := 4

/-- Message type numbers (`MESSAGE_TYPES` in `ESP_config.py`). -/
def MT_INIT : Nat := 0
def MT_INIT_ACK : Nat := 1
def MT_CREATE_ROOM : Nat := 2
def MT_CREATE_ACK : Nat := 3
def MT_JOIN_ROOM : Nat := 4
def MT_JOIN_ACK : Nat := 5
def MT_LEAVE_ROOM : Nat := 6
def MT_LEAVE_ACK : Nat := 7
def MT_LIST_ROOMS : Nat := 8
def MT_LIST_ROOMS_ACK : Nat := 9
def MT_EVENT : Nat := 10
def MT_UPDATES : Nat := 11
def MT_UPDATES_ACK : Nat := 12
def MT_SNAPSHOT : Nat := 13
def MT_SNAPSHOT_ACK : Nat := 14
def MT_DISCONNECT : Nat := 15

/-- Event type `CELL_ACQUISITION` (`EVENT_TYPES` in `ESP_config.py`). -/
def EV_CELL_ACQUISITION : Nat := 0

/-! ## Header packing and the codec -/

/-- Translation of `make_header`: `struct.pack(HEADER_FMT, PROTOCOL_ID,
VERSION, msg_type, snapshot_id, seq_num, timestamp, payload_len, pkt_id,
checksum)` with `HEADER_FMT = "!4s B B I I Q H I I"` (32 bytes). -/
def make_header (msg_type pkt_id seq_num payload_len ts checksum snapshot_id : Nat) :
    List Nat :=
  PROTOCOL_ID ++ [ESP_VERSION] ++ [msg_type % 256] ++ be4 snapshot_id ++
  be4 seq_num ++ be8 ts ++ be2 payload_len ++ be4 pkt_id ++ be4 checksum

/-- Translation of `build_packet`.  The timestamp oracle `ts` stands for the
per-fragment `time.time_ns()` calls; fragment `i` is stamped `ts i`.
Returns the pair `(packets, next_seq)` exactly as the source does. -/
def build_packet (msg_type pkt_id start_seq : Nat) (payload : List Nat)
    (snapshot_id : Nat) (ts : Nat → Nat) : List (List Nat) × Nat :=
  if payload.isEmpty then
    -- even if payload empty, still make one control packet
    let t := ts 0
    let header0 := make_header msg_type pkt_id start_seq 0 t 0 snapshot_id
    let checksum := crc32 (header0 ++ [])
    ([make_header msg_type pkt_id start_seq 0 t checksum snapshot_id],
     start_seq + 1)
  else
    let max_data := SNAPSHOT_PAYLOAD_LIMIT
    let total_frags := (payload.length + max_data - 1) / max_data
    let packets := (List.range total_frags).map (fun frag_idx =>
      let frag_data := (payload.drop (frag_idx * max_data)).take max_data
      let t := ts frag_idx
      let header0 := make_header msg_type pkt_id (start_seq + frag_idx)
        frag_data.length t 0 snapshot_id
      let checksum := crc32 (header0 ++ frag_data)
      make_header msg_type pkt_id (start_seq + frag_idx) frag_data.length t
        checksum snapshot_id ++ frag_data)
    (packets, start_seq + total_frags)

/-- The dictionary returned by `parse_packet`. -/
structure ParsedPkt where
  msg_type : Nat
  pkt_id : Nat
  seq : Nat
  timestamp : Nat
  payload_len : Nat
  payload : List Nat
  snapshot_id : Nat
deriving DecidableEq

/-- Translation of `parse_packet`: header length check, field unpacking,
protocol/version check, and checksum verification over the header with the
checksum field zeroed concatenated with the payload.  The source slices
`data[:HEADER_SIZE]` and unpacks nine fields at fixed offsets (magic 0–3,
version 4, msg_type 5, snapshot_id 6–9, seq_num 10–13, timestamp 14–21,
payload_len 22–23, pkt_id 24–27, checksum 28–31); the 32-byte slicing is
rendered as a cons pattern, the wildcard case being the
`len(data) < HEADER_SIZE` early return. -/
def parse_packet (data : List Nat) : Option ParsedPkt :=
  match data with
  | p0 :: p1 :: p2 :: p3 :: ver :: mt ::
    s1 :: s2 :: s3 :: s4 :: q1 :: q2 :: q3 :: q4 ::
    t1 :: t2 :: t3 :: t4 :: t5 :: t6 :: t7 :: t8 ::
    l1 :: l2 :: i1 :: i2 :: i3 :: i4 :: c1 :: c2 :: c3 :: c4 :: payload =>
    let snapshot_id := rd4 [s1, s2, s3, s4]
    let seq_num := rd4 [q1, q2, q3, q4]
    let timestamp := rd8 [t1, t2, t3, t4, t5, t6, t7, t8]
    let payload_len := rd2 [l1, l2]
    let pkt_id := rd4 [i1, i2, i3, i4]
    let checksum := rd4 [c1, c2, c3, c4]
    if [p0, p1, p2, p3] ≠ PROTOCOL_ID ∨ ver ≠ ESP_VERSION then none
    else
      let header_zero :=
        make_header mt pkt_id seq_num payload_len timestamp 0 snapshot_id
      let calcsum := crc32 (header_zero ++ payload)
      if calcsum ≠ checksum then none
      else some ⟨mt, pkt_id, seq_num, timestamp, payload_len, payload,
        snapshot_id⟩
  | _ => none

/-- Flip bit `k` of byte `j` of a byte list (used to state the integrity
property of the checksum). -/
def flipBit (l : List Nat) (j k : Nat) : List Nat :=
  l.set j (l.getD j 0 ^^^ 2 ^ k)

set_option maxRecDepth 100000 in
example : crc32 [49, 50, 51, 52, 53, 54, 55, 56, 57] = 0xCBF43926 := by decide

/-! ## Payload builders and parsers (ESP_config.py) -/

/-- Translation of `build_init_ack_payload` (`"!I I"`). -/
def build_init_ack_payload (seq_num player_id : Nat) : List Nat :=
  be4 seq_num ++ be4 player_id

/-- Translation of `build_create_ack_payload` (`"!I B"`). -/
def build_create_ack_payload (seq_num room_id : Nat) : List Nat :=
  be4 seq_num ++ [room_id % 256]

/-- Translation of `parse_join_room_payload` (`"!B"`). -/
def parse_join_room_payload (payload : List Nat) : Option Nat :=
  match payload with
  | [] => none
  | b :: _ => some b

/-- Translation of `build_join_ack_payload`: header `"!I B B B"` followed by
one `"!I B B B B"` entry per room player `(local_id ↦ (player_id, rgb))`,
in dictionary (insertion) order. -/
def build_join_ack_payload (seq_num room_id player_local_id : Nat)
    (players : List (Nat × (Nat × (Nat × Nat × Nat)))) : List Nat :=
  be4 seq_num ++ [room_id % 256, player_local_id % 256, players.length % 256] ++
  (players.map (fun e =>
    be4 e.2.1 ++ [e.1 % 256, e.2.2.1 % 256, e.2.2.2.1 % 256, e.2.2.2.2 % 256])).flatten

/-- Translation of `build_leave_ack_payload`: header `"!I B"` followed by
one `"!I B B B B"` entry per remaining room player. -/
def build_leave_ack_payload (seq_num : Nat)
    (players : List (Nat × (Nat × (Nat × Nat × Nat)))) : List Nat :=
  be4 seq_num ++ [players.length % 256] ++
  (players.map (fun e =>
    be4 e.2.1 ++ [e.1 % 256, e.2.2.1 % 256, e.2.2.2.1 % 256, e.2.2.2.2 % 256])).flatten

/-- Translation of `build_list_rooms_ack_payload`: header `"!I B"` followed
by `(room_id, player_count, name_len, name)` entries. -/
def build_list_rooms_ack_payload (seq_num : Nat)
    (rooms : List (Nat × (Nat × List Nat))) : List Nat :=
  be4 seq_num ++ [rooms.length % 256] ++
  (rooms.map (fun e =>
    [e.1 % 256, e.2.1 % 256, e.2.2.length % 256] ++ e.2.2)).flatten

/-- Translation of `build_event_payload` (`"!B B B H"`). -/
def build_event_payload (event_type room_id player_local_id cell_idx : Nat) :
    List Nat :=
  [event_type % 256, room_id % 256, player_local_id % 256] ++ be2 cell_idx

/-- Translation of `parse_event_payload` (`"!B B B H"`, 5 bytes minimum). -/
def parse_event_payload (payload : List Nat) :
    Option (Nat × Nat × Nat × Nat) :=
  match payload with
  | b0 :: b1 :: b2 :: b3 :: b4 :: _ => some (b0, b1, b2, rd2 [b3, b4])
  | _ => none

/-- Translation of `build_updates_payload`: count `"!H"` followed by
`"!B B H"` entries `(event_type, local_id, cell_idx)`. -/
def build_updates_payload (updates : List (Nat × Nat × Nat)) : List Nat :=
  be2 updates.length ++
  (updates.map (fun u => [u.1 % 256, u.2.1 % 256] ++ be2 u.2.2)).flatten

/-- Entry-reading loop of `parse_updates_payload`. -/
def parse_updates_entries : Nat → List Nat → Option (List (Nat × Nat × Nat))
  | 0, _ => some []
  | n + 1, b0 :: b1 :: b2 :: b3 :: rest =>
    (parse_updates_entries n rest).map (fun l => (b0, b1, rd2 [b2, b3]) :: l)
  | _ + 1, _ => none

/-- Translation of `parse_updates_payload`: read the `"!H"` count, then that
many 4-byte `"!B B H"` entries; `none` if the payload is too short. -/
def parse_updates_payload (payload : List Nat) :
    Option (List (Nat × Nat × Nat)) :=
  match payload with
  | c0 :: c1 :: rest => parse_updates_entries (rd2 [c0, c1]) rest
  | _ => none

/-- Translation of `build_updates_ack_payload` (`"!I"`). -/
def build_updates_ack_payload (seq_num : Nat) : List Nat := be4 seq_num

/-- Translation of `parse_updates_ack_payload` (`"!I"`, 4 bytes minimum). -/
def parse_updates_ack_payload (payload : List Nat) : Option Nat :=
  match payload with
  | b0 :: b1 :: b2 :: b3 :: _ => some (rd4 [b0, b1, b2, b3])
  | _ => none

/-- Translation of `build_snapshot_payload` (`"!400B"`). -/
def build_snapshot_payload (grid : List Nat) : List Nat :=
  grid.map (· % 256)

/-- Translation of `build_snapshot_ack_payload` (`"!I"`). -/
def build_snapshot_ack_payload (seq_num : Nat) : List Nat := be4 seq_num

/-- Translation of `parse_snapshot_ack_payload` (`"!I"`, 4 bytes minimum). -/
def parse_snapshot_ack_payload (payload : List Nat) : Option Nat :=
  match payload with
  | b0 :: b1 :: b2 :: b3 :: _ => some (rd4 [b0, b1, b2, b3])
  | _ => none

/-! ## UTF-8 validity (for `parse_create_room_payload`)

`parse_create_room_payload` calls `bytes.decode('utf-8')`, which raises
`UnicodeDecodeError` on invalid UTF-8.  Room names are modelled as the raw
byte lists; the validator below captures exactly the byte sequences Python
accepts (RFC 3629: no overlong forms, no surrogates, maximum U+10FFFF). -/

/-- Continuation byte test: `0x80 ≤ b ≤ 0xBF`. -/
def utf8_cont (b : Nat) : Bool := 128 ≤ b && b < 192

/-- UTF-8 validity of a byte sequence, as accepted by Python's strict
`decode('utf-8')`. -/
def validUtf8 : List Nat → Bool
  | [] => true
  | b :: rest =>
    if b < 128 then validUtf8 rest
    else if 194 ≤ b && b ≤ 223 then
      match rest with
      | c1 :: r => utf8_cont c1 && validUtf8 r
      | [] => false
    else if b = 224 then
      match rest with
      | c1 :: c2 :: r => (160 ≤ c1 && c1 < 192) && utf8_cont c2 && validUtf8 r
      | _ => false
    else if (225 ≤ b && b ≤ 236) || b = 238 || b = 239 then
      match rest with
      | c1 :: c2 :: r => utf8_cont c1 && utf8_cont c2 && validUtf8 r
      | _ => false
    else if b = 237 then
      match rest with
      | c1 :: c2 :: r => (128 ≤ c1 && c1 < 160) && utf8_cont c2 && validUtf8 r
      | _ => false
    else if b = 240 then
      match rest with
      | c1 :: c2 :: c3 :: r =>
        (144 ≤ c1 && c1 < 192) && utf8_cont c2 && utf8_cont c3 && validUtf8 r
      | _ => false
    else if 241 ≤ b && b ≤ 243 then
      match rest with
      | c1 :: c2 :: c3 :: r =>
        utf8_cont c1 && utf8_cont c2 && utf8_cont c3 && validUtf8 r
      | _ => false
    else if b = 244 then
      match rest with
      | c1 :: c2 :: c3 :: r =>
        (128 ≤ c1 && c1 < 144) && utf8_cont c2 && utf8_cont c3 && validUtf8 r
      | _ => false
    else false

/-! ## Fragment reassembly (FragmentManager) -/

/-- A value of the `Fragment` dataclass: received fragments
(`seq_num ↦ bytes`, in insertion order), received byte total and expected
byte total.  The `timestamp` field only feeds the timeout-based `cleanup`
and is omitted here. -/
structure Fragment where
  frags : List (Nat × List Nat)
  received_bytes : Nat
  expected_bytes : Nat
deriving DecidableEq

/-- The `FragmentManager.fragments` table: `(peer address, pkt_id)` keyed.
Peer addresses are opaque and modelled as `Nat`. -/
def FragTable : Type := List ((Nat × Nat) × Fragment)

/-- Association-list lookup with the same semantics as `dict.get`. -/
def dlookup {α β : Type} [DecidableEq α] : List (α × β) → α → Option β
  | [], _ => none
  | (k, v) :: t, a => if a = k then some v else dlookup t a

/-- Association-list store with the same semantics as `dict.__setitem__`:
replace in place if the key exists, otherwise append. -/
def dset {α β : Type} [DecidableEq α] : List (α × β) → α → β → List (α × β)
  | [], a, b => [(a, b)]
  | (k, v) :: t, a, b => if a = k then (k, b) :: t else (k, v) :: dset t a b

/-- Association-list delete with the same semantics as `dict.__delitem__`
(and a no-op when the key is absent, as used after an `in` check). -/
def ddel {α β : Type} [DecidableEq α] : List (α × β) → α → List (α × β)
  | [], _ => []
  | (k, v) :: t, a => if a = k then t else (k, v) :: ddel t a

/-- Insertion sort used to model Python's `sorted` on the fragment keys. -/
def sortedInsert (x : Nat) : List Nat → List Nat
  | [] => [x]
  | y :: t => if x ≤ y then x :: y :: t else y :: sortedInsert x t

/-- Sort a list of naturals ascending (Python `sorted`). -/
def sortNat : List Nat → List Nat
  | [] => []
  | x :: t => sortedInsert x (sortNat t)

/-- Contiguity check of `add_fragment`:
`all(seq_keys[i+1] == seq_keys[i] + 1)` over the sorted key list. -/
def contiguous : List Nat → Bool
  | [] => true
  | [_] => true
  | a :: b :: t => (b = a + 1) && contiguous (b :: t)

/-- Translation of `FragmentManager.add_fragment`.  Returns the updated
table and, on completion, the `(seq_keys, full_payload)` pair.  Note that
the `Fragment` is created with `expected_bytes` equal to the `payload_len`
header field of whichever fragment of the group arrives first. -/
def add_fragment (table : FragTable) (client_address msg_id seq payload_len : Nat)
    (payload : List Nat) : FragTable × Option (List Nat × List Nat) :=
  let key := (client_address, msg_id)
  let table : FragTable :=
    match dlookup table key with
    | none => dset table key ⟨[], 0, payload_len⟩
    | some _ => table
  match dlookup table key with
  | none => (table, none)
  | some frag =>
    if (dlookup frag.frags seq).isSome then (table, none)
    else
      let frag : Fragment :=
        { frag with frags := dset frag.frags seq payload,
                    received_bytes := frag.received_bytes + payload.length }
      if frag.expected_bytes ≤ frag.received_bytes then
        let seq_keys := sortNat (frag.frags.map Prod.fst)
        if contiguous seq_keys then
          let full_payload := (seq_keys.map
            (fun i => (dlookup frag.frags i).getD [])).flatten
          (ddel table key, some (seq_keys, full_payload))
        else (dset table key frag, none)
      else (dset table key frag, none)

/-! ## Server model (server.py)

The server state scopes the fields of `ESPServerProtocol` that the claims
are about; the socket and the metrics CSV writer are external, and the
fragment-manager table is modelled separately above (handlers below receive
already-reassembled packets, exactly what `handle_recv` passes them).

One behavioural point is central: `ESPServerProtocol.send` binds
`pkts = build_packet(...)` WITHOUT unpacking the returned
`(packets, next_seq)` tuple, so `for p in pkts:` iterates over exactly two
items — first the packet list, then the integer `next_seq`.  Both make
`sock.sendto` raise, which the source swallows (`except Exception: pass`);
the per-iteration bookkeeping (unacked-table insertion, metrics logging,
sequence increment) still runs for both items.  The model reproduces this:
per logical `send` the per-peer sequence advances by 2, and in reliable
mode two unacked entries are stored whose `packet` values are the raw
tuple items (`PktItem.pkts`/`PktItem.num`), not `bytes`. -/

/-- A Python exception kind raised by modelled code. -/
inductive PyErr
  | typeErr
  | keyErr
  | decodeErr
  | indexErr
  | attrErr
deriving DecidableEq

/-- An item of the `(packets, next_seq)` tuple that `send` iterates over
and stores in unacked entries. -/
inductive PktItem
  | pkts (ps : List (List Nat))
  | num (n : Nat)
deriving DecidableEq

/-- A value of the `unacked_packets` table: the object stored by `send`
(`last_sent` feeds only the time-based retransmit test, modelled by the
`due` oracle of `retransmit`). -/
structure UnackedEntry where
  packet : PktItem
  msg_type : Nat
  sent_count : Nat
deriving DecidableEq

/-- A value of the `RoomPlayer` dataclass. -/
structure RoomPlayer where
  global_id : Nat
  color : Nat × Nat × Nat
deriving DecidableEq

/-- A value of the `Room` dataclass.  Room names are raw UTF-8 byte lists;
`updates` is the bounded deque (`maxlen = LAST_K_UPDATES`), oldest first. -/
structure Room where
  room_id : Nat
  name : List Nat
  snapshot_id : Nat
  players : List (Nat × RoomPlayer)
  grid : List Nat
  updates : List (Nat × Nat × Nat)
deriving DecidableEq

/-- A value of the `PlayerRoomInfo` dataclass. -/
structure PlayerRoomInfo where
  address : Nat
  room_id : Nat
  player_local_id : Nat
deriving DecidableEq

/-- The server state (`ESPServerProtocol.__init__`). -/
structure SState where
  next_player_id : Nat
  players : List (Nat × PlayerRoomInfo)
  addr_to_player : List (Nat × Nat)
  next_room_id : Nat
  rooms : List (Nat × Room)
  pkt_id : Nat
  seq : List (Nat × Nat)
  unacked_packets : List ((Nat × Nat) × UnackedEntry)
deriving DecidableEq

/-- The server state right after `__init__`. -/
def initialSState : SState :=
  { next_player_id := 1, players := [], addr_to_player := [],
    next_room_id := 1, rooms := [], pkt_id := 1, seq := [],
    unacked_packets := [] }

/-- A packet as delivered to the server handlers by `handle_recv`: the
`parse_packet` dictionary after reassembly, with `payload` replaced by the
reassembled bytes and `seq_keys` added. -/
structure Pkt where
  msg_type : Nat
  seq : Nat
  snapshot_id : Nat
  payload : List Nat
  seq_keys : List Nat
deriving DecidableEq

/-- Append to a `deque(maxlen=LAST_K_UPDATES)`: drop the oldest entry when
the deque is full. -/
def dq_append (l : List (Nat × Nat × Nat)) (x : Nat × Nat × Nat) :
    List (Nat × Nat × Nat) :=
  if l.length < LAST_K_UPDATES then l ++ [x] else l.drop 1 ++ [x]

/-- Python's `list(l)[-n:]` for `n ≥ 0`. -/
def takeLast {α : Type} (n : Nat) (l : List α) : List α :=
  l.drop (l.length - n)

/-- Translation of `ESPServerProtocol.send`.

Source structure, with the tuple-iteration behaviour spelled out:
the guard clauses (ack forces `repeat = 1`; `repeat < 1`, unregistered
address, missing per-peer sequence all return `False`), the snapshot-id
lookup through the sender's room, the `build_packet` call, then the
two-item loop.  For `msg_type == UPDATES` the metrics call
`self.metrics_logger.log_snapshot(..., server_time=parse_packet(p)['timestamp'],
grid=...)` raises `TypeError` while evaluating its arguments — `p` is the
packet *list* (first item) so `parse_packet(p)` is `None` and
`None['timestamp']` raises — before the sequence increment of that
iteration; the keyword mismatch (`grid=` unexpected, `recv_time` missing)
would equally raise `TypeError` at this call.  The raise propagates to the
caller with the state mutated so far. -/
def srv_send (st : SState) (ts : Nat → Nat) (msg_type address : Nat)
    (payload : List Nat) (ack : Bool) (rep : Nat) :
    SState × Except PyErr Bool :=
  let rep := if ack then 1 else rep
  if rep < 1 then (st, .ok false)
  else
    match dlookup st.addr_to_player address with
    | none => (st, .ok false)
    | some player_id =>
      match dlookup st.seq player_id with
      | none => (st, .ok false)
      | some s0 =>
        let snapshot_id :=
          match dlookup st.players player_id with
          | none => 0
          | some pi =>
            match dlookup st.rooms pi.room_id with
            | none => 0
            | some room => room.snapshot_id
        let built := build_packet msg_type st.pkt_id s0 payload snapshot_id ts
        -- first tuple item: the packet list
        let entry1 : UnackedEntry := ⟨.pkts built.1, msg_type, 0⟩
        let st1 := if ack then
            { st with unacked_packets := dset st.unacked_packets (s0, player_id) entry1 }
          else st
        if msg_type = MT_UPDATES then (st1, .error .typeErr)
        else
          let st2 := { st1 with seq := dset st1.seq player_id (s0 + 1) }
          -- second tuple item: the integer next_seq
          let entry2 : UnackedEntry := ⟨.num built.2, msg_type, 0⟩
          let st3 := if ack then
              { st2 with unacked_packets := dset st2.unacked_packets (s0 + 1, player_id) entry2 }
            else st2
          if msg_type = MT_UPDATES then (st3, .error .typeErr)
          else
            let st4 := { st3 with seq := dset st3.seq player_id (s0 + 2) }
            (st4, .ok true)

/-- Translation of `parse_packet` applied to a stored unacked `packet`
value, as done by `handle_updates_ack` / `handle_snapshot_ack`.  The stored
object is a tuple item, never `bytes`: for the packet *list*, `len(data)`
is the (small) fragment count, so `parse_packet` returns `None` through its
length guard; for the integer item, `len(data)` itself raises `TypeError`.
A list of 32 or more fragments would reach `struct.unpack` and also raise
`TypeError`. -/
def parse_stored : PktItem → Except PyErr (Option ParsedPkt)
  | .pkts ps => if ps.length < HEADER_SIZE then .ok none else .error .typeErr
  | .num _ => .error .typeErr

/-- Translation of `parse_create_room_payload`: `payload.decode('utf-8')`,
raising `UnicodeDecodeError` on invalid UTF-8.  The decoded name is
modelled by the raw byte list. -/
def parse_create_room_payload (payload : List Nat) : Except PyErr (List Nat) :=
  if validUtf8 payload then .ok payload else .error .decodeErr

/-- Translation of `ESPServerProtocol.update_cell`.  Bounds-checks the
cell, refuses an acquisition of an owned cell, otherwise writes the grid
and (for every event type that gets this far) advances `snapshot_id` and
appends to the bounded updates deque. -/
def update_cell (event_type : Nat) (room : Room) (player_local_id cell_idx : Nat) :
    Room :=
  if ¬ cell_idx < TOTAL_CELLS then room
  else if event_type = EV_CELL_ACQUISITION ∧ room.grid.getD cell_idx 0 ≠ 0 then
    room
  else
    let grid := if event_type = EV_CELL_ACQUISITION then
        room.grid.set cell_idx player_local_id
      else room.grid
    { room with
        grid := grid,
        snapshot_id := room.snapshot_id + 1,
        updates := dq_append room.updates (event_type, player_local_id, cell_idx) }

/-- The `for seq_key in pkt['seq_keys']` loop of `handle_init`: build the
INIT_ACK payload for each reassembled fragment sequence and send it
(default `ack=False, repeat=1`); a failed send returns from the handler. -/
def init_ack_loop (ts : Nat → Nat) (address next_player_id : Nat) :
    List Nat → SState → SState × Except PyErr Bool
  | [], st => (st, .ok true)
  | seq_key :: rest, st =>
    let payload := build_init_ack_payload seq_key next_player_id
    match srv_send st ts MT_INIT_ACK address payload false 1 with
    | (st', .error e) => (st', .error e)
    | (st', .ok false) => (st', .ok false)
    | (st', .ok true) => init_ack_loop ts address next_player_id rest st'

/-- Translation of `ESPServerProtocol.handle_init`. -/
def handle_init (st : SState) (ts : Nat → Nat) (pkt : Pkt) (addr : Nat) :
    SState × Except PyErr Unit :=
  let npid := st.next_player_id
  let st1 := { st with
    players := dset st.players npid ⟨addr, 0, 0⟩,
    addr_to_player := dset st.addr_to_player addr npid,
    seq := dset st.seq npid 1 }
  match init_ack_loop ts addr npid pkt.seq_keys st1 with
  | (st2, .error e) => (st2, .error e)
  | (st2, .ok false) => (st2, .ok ())
  | (st2, .ok true) =>
    ({ st2 with next_player_id := npid + 1, pkt_id := st2.pkt_id + 1 }, .ok ())

/-- The `for seq_key in pkt['seq_keys']` loop of `handle_create_room`. -/
def create_ack_loop (ts : Nat → Nat) (address room_id : Nat) :
    List Nat → SState → SState × Except PyErr Bool
  | [], st => (st, .ok true)
  | seq_key :: rest, st =>
    let payload := build_create_ack_payload seq_key room_id
    match srv_send st ts MT_CREATE_ACK address payload false 1 with
    | (st', .error e) => (st', .error e)
    | (st', .ok false) => (st', .ok false)
    | (st', .ok true) => create_ack_loop ts address room_id rest st'

/-- Translation of `ESPServerProtocol.handle_create_room`.  Note that the
handler performs no registration check: the room is stored under
`next_room_id` before any send is attempted, and `next_room_id`/`pkt_id`
only advance if every CREATE_ACK send succeeded. -/
def handle_create_room (st : SState) (ts : Nat → Nat) (pkt : Pkt) (addr : Nat) :
    SState × Except PyErr Unit :=
  match parse_create_room_payload pkt.payload with
  | .error e => (st, .error e)
  | .ok room_name =>
    -- `if room_name is None: return` is dead: decode returns a str or raises
    let room_id := st.next_room_id
    let newRoom : Room := ⟨room_id, room_name, 0, [], List.replicate TOTAL_CELLS 0, []⟩
    let st1 := { st with rooms := dset st.rooms room_id newRoom }
    match create_ack_loop ts addr room_id pkt.seq_keys st1 with
    | (st2, .error e) => (st2, .error e)
    | (st2, .ok false) => (st2, .ok ())
    | (st2, .ok true) =>
      ({ st2 with next_room_id := room_id + 1, pkt_id := st2.pkt_id + 1 }, .ok ())

/-- The member fan-out of `handle_join_room`: for each room member, look up
its registry entry (skip on `None`), pick the fragment-sequence list — the
joiner is answered once per reassembled fragment sequence, other members
only for the first one (`pkt['seq_keys'][0]`, an `IndexError` when the list
is empty) — and send JOIN_ACK fire-and-forget with K-packet redundancy; a
failed send breaks the inner loop only.  Returns the state, whether any
send succeeded, and a possible raise. -/
def join_ack_seq_loop (ts : Nat → Nat) (address room_id ld : Nat)
    (players_info : List (Nat × (Nat × (Nat × Nat × Nat)))) :
    List Nat → SState → Bool → SState × Bool × Except PyErr Unit
  | [], st, sent => (st, sent, .ok ())
  | seq_key :: rest, st, sent =>
    let payload := build_join_ack_payload seq_key room_id ld players_info
    match srv_send st ts MT_JOIN_ACK address payload false REDUNDANT_K_PACKETS with
    | (st', .error e) => (st', sent, .error e)
    | (st', .ok false) => (st', sent, .ok ())
    | (st', .ok true) => join_ack_seq_loop ts address room_id ld players_info rest st' true

def join_fanout (ts : Nat → Nat) (pkt : Pkt) (room_id local_id : Nat)
    (players_info : List (Nat × (Nat × (Nat × Nat × Nat)))) :
    List (Nat × RoomPlayer) → SState → Bool → SState × Bool × Except PyErr Unit
  | [], st, sent => (st, sent, .ok ())
  | (ld, player) :: rest, st, sent =>
    match dlookup st.players player.global_id with
    | none => join_fanout ts pkt room_id local_id players_info rest st sent
    | some player_info =>
      match pkt.seq_keys with
      | [] => (st, sent, .error .indexErr)
      | k0 :: _ =>
        let seq_keys := if ld = local_id then pkt.seq_keys else [k0]
        match join_ack_seq_loop ts player_info.address room_id ld players_info
            seq_keys st sent with
        | (st', sent', .error e) => (st', sent', .error e)
        | (st', sent', .ok ()) =>
          join_fanout ts pkt room_id local_id players_info rest st' sent'

/-- The lowest free local id in `1..REQUIRED_ROOM_PLAYERS`, as found by the
`for local_id in range(1, REQUIRED_ROOM_PLAYERS + 1)` loop. -/
def pick_local_id (room : Room) : Option Nat :=
  (List.range REQUIRED_ROOM_PLAYERS).map (· + 1)
    |>.find? (fun lid => (dlookup room.players lid).isNone)

/-- Translation of `ESPServerProtocol.handle_join_room`.  The colour drawn
by the resample-until-unique loop is the `color` oracle parameter.  Note
that nothing removes the player from a room it already occupies. -/
def handle_join_room (st : SState) (ts : Nat → Nat) (color : Nat × Nat × Nat)
    (pkt : Pkt) (addr : Nat) : SState × Except PyErr Unit :=
  match parse_join_room_payload pkt.payload with
  | none => (st, .ok ())
  | some room_id =>
    match dlookup st.rooms room_id with
    | none => (st, .ok ())
    | some room =>
      match dlookup st.addr_to_player addr with
      | none => (st, .ok ())
      | some player_id =>
        match dlookup st.seq player_id with
        | none => (st, .ok ())
        | some _ =>
          match pick_local_id room with
          | none => (st, .ok ())
          | some local_id =>
            let room' := { room with
              players := dset room.players local_id ⟨player_id, color⟩ }
            let st1 := { st with rooms := dset st.rooms room_id room' }
            match dlookup st1.players player_id with
            | none => (st1, .error .keyErr)
            | some pinfo =>
              let pinfo' := { pinfo with room_id := room_id, player_local_id := local_id }
              let st2 := { st1 with players := dset st1.players player_id pinfo' }
              let players_info := room'.players.map
                (fun e => (e.1, (e.2.global_id, e.2.color)))
              match join_fanout ts pkt room_id local_id players_info
                  room'.players st2 false with
              | (st3, _, .error e) => (st3, .error e)
              | (st3, true, .ok ()) =>
                ({ st3 with pkt_id := st3.pkt_id + 1 }, .ok ())
              | (st3, false, .ok ()) => (st3, .ok ())

/-- The member fan-out of `handle_leave_room` (same shape as the JOIN_ACK
fan-out, with LEAVE_ACK payloads). -/
def leave_ack_seq_loop (ts : Nat → Nat) (address : Nat)
    (players_info : List (Nat × (Nat × (Nat × Nat × Nat)))) :
    List Nat → SState → Bool → SState × Bool × Except PyErr Unit
  | [], st, sent => (st, sent, .ok ())
  | seq_key :: rest, st, sent =>
    let payload := build_leave_ack_payload seq_key players_info
    match srv_send st ts MT_LEAVE_ACK address payload false REDUNDANT_K_PACKETS with
    | (st', .error e) => (st', sent, .error e)
    | (st', .ok false) => (st', sent, .ok ())
    | (st', .ok true) => leave_ack_seq_loop ts address players_info rest st' true

def leave_fanout (ts : Nat → Nat) (pkt : Pkt) (local_id : Nat)
    (players_info : List (Nat × (Nat × (Nat × Nat × Nat)))) :
    List (Nat × RoomPlayer) → SState → Bool → SState × Bool × Except PyErr Unit
  | [], st, sent => (st, sent, .ok ())
  | (ld, player) :: rest, st, sent =>
    match dlookup st.players player.global_id with
    | none => leave_fanout ts pkt local_id players_info rest st sent
    | some player_info =>
      match pkt.seq_keys with
      | [] => (st, sent, .error .indexErr)
      | k0 :: _ =>
        let seq_keys := if ld = local_id then pkt.seq_keys else [k0]
        match leave_ack_seq_loop ts player_info.address players_info
            seq_keys st sent with
        | (st', sent', .error e) => (st', sent', .error e)
        | (st', sent', .ok ()) =>
          leave_fanout ts pkt local_id players_info rest st' sent'

/-- Translation of `ESPServerProtocol.handle_leave_room`.  The
`self.players.get(player_id).room_id` attribute access raises
`AttributeError` when the registry entry is missing; the
`if room_id is None` check is dead (`room_id` is an int). -/
def handle_leave_room (st : SState) (ts : Nat → Nat) (pkt : Pkt) (addr : Nat) :
    SState × Except PyErr Unit :=
  match dlookup st.addr_to_player addr with
  | none => (st, .ok ())
  | some player_id =>
    match dlookup st.seq player_id with
    | none => (st, .ok ())
    | some _ =>
      match dlookup st.players player_id with
      | none => (st, .error .attrErr)
      | some pinfo =>
        match dlookup st.rooms pinfo.room_id with
        | none => (st, .ok ())
        | some room =>
          let local_id := pinfo.player_local_id
          let room' := { room with players := ddel room.players local_id }
          let st1 := { st with rooms := dset st.rooms pinfo.room_id room' }
          let pinfo' := { pinfo with room_id := 0, player_local_id := 0 }
          let st2 := { st1 with players := dset st1.players player_id pinfo' }
          let players_info := room'.players.map
            (fun e => (e.1, (e.2.global_id, e.2.color)))
          match leave_fanout ts pkt local_id players_info room'.players
              st2 false with
          | (st3, _, .error e) => (st3, .error e)
          | (st3, true, .ok ()) =>
            ({ st3 with pkt_id := st3.pkt_id + 1 }, .ok ())
          | (st3, false, .ok ()) => (st3, .ok ())

/-- The `for seq_key in pkt['seq_keys']` loop of `handle_list_rooms`. -/
def list_rooms_ack_loop (ts : Nat → Nat) (address : Nat)
    (rooms_info : List (Nat × (Nat × List Nat))) :
    List Nat → SState → SState × Except PyErr Bool
  | [], st => (st, .ok true)
  | seq_key :: rest, st =>
    let payload := build_list_rooms_ack_payload seq_key rooms_info
    match srv_send st ts MT_LIST_ROOMS_ACK address payload false 1 with
    | (st', .error e) => (st', .error e)
    | (st', .ok false) => (st', .ok false)
    | (st', .ok true) => list_rooms_ack_loop ts address rooms_info rest st'

/-- Translation of `ESPServerProtocol.handle_list_rooms`. -/
def handle_list_rooms (st : SState) (ts : Nat → Nat) (pkt : Pkt) (addr : Nat) :
    SState × Except PyErr Unit :=
  match dlookup st.addr_to_player addr with
  | none => (st, .ok ())
  | some _ =>
    let rooms_info := st.rooms.map
      (fun e => (e.1, (e.2.players.length, e.2.name)))
    match list_rooms_ack_loop ts addr rooms_info pkt.seq_keys st with
    | (st1, .error e) => (st1, .error e)
    | (st1, .ok false) => (st1, .ok ())
    | (st1, .ok true) => ({ st1 with pkt_id := st1.pkt_id + 1 }, .ok ())

/-- The full-room fan-out of `handle_event`: forward the original EVENT
payload to every member, K-redundant, skipping members with no registry
entry; a failed send just moves on (`continue`). -/
def event_fanout (ts : Nat → Nat) (payload : List Nat) :
    List (Nat × RoomPlayer) → SState → Bool → SState × Bool × Except PyErr Unit
  | [], st, sent => (st, sent, .ok ())
  | (_, player) :: rest, st, sent =>
    match dlookup st.players player.global_id with
    | none => event_fanout ts payload rest st sent
    | some player_info =>
      match srv_send st ts MT_EVENT player_info.address payload false
          REDUNDANT_K_PACKETS with
      | (st', .error e) => (st', sent, .error e)
      | (st', .ok false) => event_fanout ts payload rest st' sent
      | (st', .ok true) => event_fanout ts payload rest st' true

/-- Translation of `ESPServerProtocol.handle_event`.  In a room below the
required player count the requester alone is answered with an EVENT whose
`local_id` is 0 and no state changes; in a full room `update_cell` runs and
the original payload is fanned out to every member. -/
def handle_event (st : SState) (ts : Nat → Nat) (pkt : Pkt) (addr : Nat) :
    SState × Except PyErr Unit :=
  match dlookup st.addr_to_player addr with
  | none => (st, .ok ())
  | some player_id =>
    match parse_event_payload pkt.payload with
    | none => (st, .ok ())
    | some (event_type, room_id, player_local_id, cell_idx) =>
      match dlookup st.rooms room_id with
      | none => (st, .ok ())
      | some room =>
        if (dlookup room.players player_local_id).isNone then (st, .ok ())
        else if room.players.length < REQUIRED_ROOM_PLAYERS then
          match dlookup st.players player_id with
          | none => (st, .ok ())
          | some player_info =>
            let payload := build_event_payload event_type room_id 0 cell_idx
            match srv_send st ts MT_EVENT player_info.address payload false
                REDUNDANT_K_PACKETS with
            | (st', .error e) => (st', .error e)
            | (st', .ok _) => (st', .ok ())
        else
          let room' := update_cell event_type room player_local_id cell_idx
          let st1 := { st with rooms := dset st.rooms room_id room' }
          match event_fanout ts pkt.payload room'.players st1 false with
          | (st2, _, .error e) => (st2, .error e)
          | (st2, true, .ok ()) =>
            ({ st2 with pkt_id := st2.pkt_id + 1 }, .ok ())
          | (st2, false, .ok ()) => (st2, .ok ())

/-- Translation of `ESPServerProtocol.handle_updates_ack`.  The ACK key is
the payload's 4-byte sequence (`if not seq` also drops a zero value).  When
the key is present, the handler re-parses the stored `packet` object; that
object is a tuple item (see `srv_send`), so the re-parse yields `None`
(early return, the entry stays) or raises `TypeError` — the catch-up
comparison of `room.snapshot_id` against the stored packet's
`snapshot_id`, and the UPDATES/SNAPSHOT resend behind it, are
unreachable.  When the key is absent, `ack_packet` returns `False` and the
handler returns. -/
def handle_updates_ack (st : SState) (pkt : Pkt) (addr : Nat) :
    SState × Except PyErr Unit :=
  match dlookup st.addr_to_player addr with
  | none => (st, .ok ())
  | some player_id =>
    match dlookup st.players player_id with
    | none => (st, .ok ())
    | some pinfo =>
      match dlookup st.rooms pinfo.room_id with
      | none => (st, .ok ())
      | some _ =>
        match parse_updates_ack_payload pkt.payload with
        | none => (st, .ok ())
        | some s =>
          if s = 0 then (st, .ok ())
          else
            match dlookup st.unacked_packets (s, player_id) with
            | some entry =>
              match parse_stored entry.packet with
              | .error e => (st, .error e)
              | .ok none => (st, .ok ())
              | .ok (some _) => (st, .ok ())
            | none => (st, .ok ())

/-- Translation of `ESPServerProtocol.handle_snapshot_ack`.  After parsing
(and discarding a zero) payload sequence, the handler REBINDS
`seq = pkt['seq']`: the unacked key is matched against the ACK packet's own
header sequence, not the acknowledged fragment sequence carried in the
payload.  The stored-packet re-parse then ends the handler exactly as in
`handle_updates_ack`, so no entry is ever removed and the fresh-SNAPSHOT
resend is unreachable. -/
def handle_snapshot_ack (st : SState) (pkt : Pkt) (addr : Nat) :
    SState × Except PyErr Unit :=
  match dlookup st.addr_to_player addr with
  | none => (st, .ok ())
  | some player_id =>
    match dlookup st.players player_id with
    | none => (st, .ok ())
    | some pinfo =>
      match dlookup st.rooms pinfo.room_id with
      | none => (st, .ok ())
      | some _ =>
        match parse_snapshot_ack_payload pkt.payload with
        | none => (st, .ok ())
        | some s =>
          if s = 0 then (st, .ok ())
          else
            let seq := pkt.seq
            match dlookup st.unacked_packets (seq, player_id) with
            | some entry =>
              match parse_stored entry.packet with
              | .error e => (st, .error e)
              | .ok none => (st, .ok ())
              | .ok (some _) => (st, .ok ())
            | none => (st, .ok ())

/-- Translation of `ESPServerProtocol.cleanup_player`: remove the player
from its room (if any), drop the address mapping, delete the registry
entry.  The fragment-table filter of the source operates on the separately
modelled reassembler state and is keyed by `player_id` against keys whose
first component is an address, so it never matches anything.  The per-peer
`seq` counter and the player's unacked entries are NOT removed. -/
def cleanup_player (st : SState) (player_id : Nat) : SState :=
  match dlookup st.players player_id with
  | none => st
  | some player =>
    let st1 :=
      if player.room_id ≠ 0 then
        match dlookup st.rooms player.room_id with
        | some room =>
          let room' := { room with players := ddel room.players player.player_local_id }
          { st with rooms := dset st.rooms player.room_id room' }
        | none => st
      else st
    let st2 := { st1 with addr_to_player := ddel st1.addr_to_player player.address }
    { st2 with players := ddel st2.players player_id }

/-- Translation of `ESPServerProtocol.handle_disconnect` (`if player_id:`
is both a presence and a non-zero test; the server never assigns id 0). -/
def handle_disconnect (st : SState) (addr : Nat) : SState :=
  match dlookup st.addr_to_player addr with
  | none => st
  | some player_id => if player_id ≠ 0 then cleanup_player st player_id else st

/-- The inner member loop of `send_updates_to_all`: members with no
per-peer sequence are skipped; the registry access
`self.players[player.global_id].address` raises `KeyError` on a missing
entry; the send is reliable (`ack=True`) with `msg_type = UPDATES`, so
`srv_send` raises `TypeError` at the metrics call of its first iteration. -/
def broadcast_players (ts : Nat → Nat) (payload : List Nat) :
    List (Nat × RoomPlayer) → SState → Bool → SState × Bool × Except PyErr Unit
  | [], st, sent => (st, sent, .ok ())
  | (_, player) :: rest, st, sent =>
    match dlookup st.seq player.global_id with
    | none => broadcast_players ts payload rest st sent
    | some _ =>
      match dlookup st.players player.global_id with
      | none => (st, sent, .error .keyErr)
      | some pinfo =>
        match srv_send st ts MT_UPDATES pinfo.address payload true 1 with
        | (st', .error e) => (st', sent, .error e)
        | (st', .ok false) => broadcast_players ts payload rest st' sent
        | (st', .ok true) => broadcast_players ts payload rest st' true

/-- The outer room loop of `send_updates_to_all`: the UPDATES payload is
built from the last `REDUNDANT_K_UPDATES` deque entries, rooms below the
required player count are skipped. -/
def broadcast_rooms (ts : Nat → Nat) :
    List (Nat × Room) → SState → Bool → SState × Bool × Except PyErr Unit
  | [], st, sent => (st, sent, .ok ())
  | (_, room) :: rest, st, sent =>
    let payload := build_updates_payload (takeLast REDUNDANT_K_UPDATES room.updates)
    if room.players.length < REQUIRED_ROOM_PLAYERS then
      broadcast_rooms ts rest st sent
    else
      match broadcast_players ts payload room.players st sent with
      | (st', sent', .error e) => (st', sent', .error e)
      | (st', sent', .ok ()) => broadcast_rooms ts rest st' sent'

/-- Translation of `ESPServerProtocol.send_updates_to_all` (the periodic
broadcast task). -/
def send_updates_to_all (st : SState) (ts : Nat → Nat) :
    SState × Except PyErr Unit :=
  match broadcast_rooms ts st.rooms st false with
  | (st', _, .error e) => (st', .error e)
  | (st', true, .ok ()) => ({ st' with pkt_id := st'.pkt_id + 1 }, .ok ())
  | (st', false, .ok ()) => (st', .ok ())

/-- Translation of `ESPServerProtocol.retransmit`, iterating over a
snapshot of the unacked table: entries at the retry cap are dropped; for
entries the `due` time-oracle marks as past the retransmission timeout,
the registry access `self.players[player_id].address` raises `KeyError` on
a missing entry, the datagram send is attempted (outcome ignored) and the
send count advances. -/
def retransmit_loop (due : Nat × Nat → Bool) :
    List ((Nat × Nat) × UnackedEntry) → SState → SState × Except PyErr Unit
  | [], st => (st, .ok ())
  | (key, entry) :: rest, st =>
    if MAX_TRANSMISSION_RETRIES ≤ entry.sent_count then
      retransmit_loop due rest
        { st with unacked_packets := ddel st.unacked_packets key }
    else if due key then
      match dlookup st.players key.2 with
      | none => (st, .error .keyErr)
      | some _ =>
        let entry' := { entry with sent_count := entry.sent_count + 1 }
        retransmit_loop due rest
          { st with unacked_packets := dset st.unacked_packets key entry' }
    else retransmit_loop due rest st

def retransmit (st : SState) (due : Nat × Nat → Bool) :
    SState × Except PyErr Unit :=
  retransmit_loop due st.unacked_packets st

/-! ## Client model (client.py)

Only the state and the code paths that decide claim C5 are embedded: the
UPDATES reconciliation (`handle_updates`) together with the client-side
`update_cell`, `send_updates_ack` and `send`.  The client `send` has the
same un-unpacked `build_packet` tuple iteration as the server's, so each
logical send advances `seq` by 2; with `ack=False` nothing is stored.

The `islogging` flag mirrors the constructor argument; a client constructed
with `islogging=True` would already have raised (`MetricsLogger` accepts no
`server_mode` keyword), and `handle_updates` would raise `TypeError` at its
own metrics call, whose keywords (`positions=`, `bytes_received=`) the
logger does not accept either. -/

/-- The client state (`ESPClientProtocol.__init__`), restricted to the
fields the reconciliation path reads or writes. -/
structure CState where
  snapshot_id : Nat
  grid : List Nat
  pending_cells : List (Nat × Nat)
  owned_cells : List Nat
  positions : List (Nat × (Nat × Nat))
  local_id : Option Nat
  seq : Nat
  pkt_id : Nat
  unacked_packets : List (Nat × UnackedEntry)
  islogging : Bool
deriving DecidableEq

/-- Python set insertion for `owned_cells.add`. -/
def set_add (l : List Nat) (x : Nat) : List Nat := if x ∈ l then l else l ++ [x]

/-- Translation of `ESPClientProtocol.send` (state effects; transmission is
external I/O).  The `for p in pkts` loop iterates over the two items of the
`build_packet` result tuple. -/
def client_send (st : CState) (ts : Nat → Nat) (msg_type : Nat)
    (payload : List Nat) (ack : Bool) (rep : Nat) : CState × Bool :=
  let rep := if ack then 1 else rep
  if rep < 1 then (st, false)
  else
    let built := build_packet msg_type st.pkt_id st.seq payload st.snapshot_id ts
    let entry1 : UnackedEntry := ⟨.pkts built.1, msg_type, 0⟩
    let st1 := if ack then
        { st with unacked_packets := dset st.unacked_packets st.seq entry1 }
      else st
    let st2 := { st1 with seq := st1.seq + 1 }
    let entry2 : UnackedEntry := ⟨.num built.2, msg_type, 0⟩
    let st3 := if ack then
        { st2 with unacked_packets := dset st2.unacked_packets st2.seq entry2 }
      else st2
    let st4 := { st3 with seq := st3.seq + 1 }
    ({ st4 with pkt_id := st4.pkt_id + 1 }, true)

/-- Translation of `ESPClientProtocol.send_updates_ack`: sequence numbers
below 1 are dropped, otherwise an UPDATES_ACK is sent fire-and-forget.
The returned flag records whether the send path ran (the ghost "an ACK was
emitted for this fragment sequence"). -/
def send_updates_ack (st : CState) (ts : Nat → Nat) (seq_num : Nat) :
    CState × Bool :=
  if seq_num < 1 then (st, false)
  else
    let payload := build_updates_ack_payload seq_num
    ((client_send st ts MT_UPDATES_ACK payload false 1).1, true)

/-- Translation of `ESPClientProtocol.update_cell` (client-side application
of one `(event_type, local_id, cell_idx)` update). -/
def client_update_cell (st : CState) (event_type player_local_id cell_idx : Nat) :
    CState :=
  if ¬ cell_idx < TOTAL_CELLS then st
  else if event_type = EV_CELL_ACQUISITION then
    let st := { st with pending_cells := ddel st.pending_cells cell_idx }
    if player_local_id = 0 then st
    else
      let st := if st.local_id = some player_local_id then
          { st with owned_cells := set_add st.owned_cells cell_idx }
        else st
      { st with
          grid := st.grid.set cell_idx player_local_id,
          positions := dset st.positions player_local_id
            (cell_idx % GRID_N, cell_idx / GRID_N) }
  else st

/-- The `for seq_key in pkt['seq_keys']` ACK loop at the end of
`handle_updates`: emit an UPDATES_ACK per reassembled fragment sequence and,
when `islogging` is set, raise `TypeError` at the metrics call.  The second
component accumulates the fragment sequences for which an ACK was emitted. -/
def updates_ack_loop (ts : Nat → Nat) :
    List Nat → CState → List Nat → CState × List Nat × Except PyErr Unit
  | [], st, acks => (st, acks, .ok ())
  | seq_key :: rest, st, acks =>
    let (st', sent) := send_updates_ack st ts seq_key
    let acks' := if sent then acks ++ [seq_key] else acks
    if st'.islogging then (st', acks', .error .typeErr)
    else updates_ack_loop ts rest st' acks'

/-- Translation of `ESPClientProtocol.handle_updates`.  `if updates:` is
false both for an unparsable payload (`None`) and for an empty update list
(an empty deque is falsy), in which case the handler does nothing — in
particular it emits no UPDATES_ACK.  Otherwise, when
`0 < required ≤ len(updates)` the trailing `required` updates are applied
in order and the local snapshot id is set to the packet's; in every
other case nothing is applied; either way every fragment sequence of the
packet is ACKed. -/
def handle_updates (st : CState) (ts : Nat → Nat) (pkt : Pkt) :
    CState × List Nat × Except PyErr Unit :=
  match parse_updates_payload pkt.payload with
  | none => (st, [], .ok ())
  | some updates =>
    if updates.isEmpty then (st, [], .ok ())
    else
      let required : Int := (pkt.snapshot_id : Int) - (st.snapshot_id : Int)
      let st1 :=
        if 0 < required ∧ required ≤ (updates.length : Int) then
          let applied := (takeLast required.toNat updates).foldl
            (fun s u => client_update_cell s u.1 u.2.1 u.2.2) st
          { applied with snapshot_id := pkt.snapshot_id }
        else st
      updates_ack_loop ts pkt.seq_keys st1 []

/-! ## The server step relation

One step is one complete server operation on reassembled input: a message
handler (with its address and packet arbitrary), the periodic broadcast, or
the retransmit task.  Time, colour and retransmission-due oracles are
existentially free in each constructor. -/

/-- Labels naming the server operations. -/
inductive StepKind
  | initMsg
  | createRoom
  | joinRoom
  | leaveRoom
  | listRooms
  | eventMsg
  | updatesAck
  | snapshotAck
  | disconnect
  | broadcast
  | retrans
deriving DecidableEq

/-- The labelled transition relation of the server: `SStep k s s'` holds
when operation `k`, run from state `s` on some input, leaves the server in
state `s'` (whether it returned normally or raised). -/
inductive SStep : StepKind → SState → SState → Prop
  | initMsg (s : SState) (ts : Nat → Nat) (pkt : Pkt) (addr : Nat) :
      SStep .initMsg s (handle_init s ts pkt addr).1
  | createRoom (s : SState) (ts : Nat → Nat) (pkt : Pkt) (addr : Nat) :
      SStep .createRoom s (handle_create_room s ts pkt addr).1
  | joinRoom (s : SState) (ts : Nat → Nat) (color : Nat × Nat × Nat)
      (pkt : Pkt) (addr : Nat) :
      SStep .joinRoom s (handle_join_room s ts color pkt addr).1
  | leaveRoom (s : SState) (ts : Nat → Nat) (pkt : Pkt) (addr : Nat) :
      SStep .leaveRoom s (handle_leave_room s ts pkt addr).1
  | listRooms (s : SState) (ts : Nat → Nat) (pkt : Pkt) (addr : Nat) :
      SStep .listRooms s (handle_list_rooms s ts pkt addr).1
  | eventMsg (s : SState) (ts : Nat → Nat) (pkt : Pkt) (addr : Nat) :
      SStep .eventMsg s (handle_event s ts pkt addr).1
  | updatesAck (s : SState) (pkt : Pkt) (addr : Nat) :
      SStep .updatesAck s (handle_updates_ack s pkt addr).1
  | snapshotAck (s : SState) (pkt : Pkt) (addr : Nat) :
      SStep .snapshotAck s (handle_snapshot_ack s pkt addr).1
  | disconnect (s : SState) (addr : Nat) :
      SStep .disconnect s (handle_disconnect s addr)
  | broadcast (s : SState) (ts : Nat → Nat) :
      SStep .broadcast s (send_updates_to_all s ts).1
  | retrans (s : SState) (due : Nat × Nat → Bool) :
      SStep .retrans s (retransmit s due).1

/-! ## Byte-level helper lemmas -/

theorem len_succ_cons {α : Type} {l : List α} {n : Nat} (h : l.length = n + 1) :
    ∃ a t, l = a :: t ∧ t.length = n := by
  cases l with
  | nil => simp at h
  | cons a t => exact ⟨a, t, rfl, by simpa using h⟩

theorem rd2_explicit (a b : Nat) : rd2 [a, b] = a * 2 ^ 8 + b := by
  simp [rd2]

theorem rd4_explicit (a b c d : Nat) :
    rd4 [a, b, c, d] = a * 2 ^ 24 + b * 2 ^ 16 + c * 2 ^ 8 + d := by
  simp [rd4]

theorem rd8_explicit (a b c d e f g h : Nat) :
    rd8 [a, b, c, d, e, f, g, h] =
      a * 2 ^ 56 + b * 2 ^ 48 + c * 2 ^ 40 + d * 2 ^ 32 +
      e * 2 ^ 24 + f * 2 ^ 16 + g * 2 ^ 8 + h := by
  simp [rd8]

theorem be2_rd2 {a b : Nat} (ha : a < 256) (hb : b < 256) :
    be2 (rd2 [a, b]) = [a, b] := by
  rw [rd2_explicit]
  simp only [be2, List.cons.injEq, and_true]
  refine ⟨?_, ?_⟩ <;> omega

theorem be4_rd4 {a b c d : Nat} (ha : a < 256) (hb : b < 256) (hc : c < 256)
    (hd : d < 256) : be4 (rd4 [a, b, c, d]) = [a, b, c, d] := by
  rw [rd4_explicit]
  simp only [be4, List.cons.injEq, and_true]
  refine ⟨?_, ?_, ?_, ?_⟩ <;> omega

theorem be8_rd8 {a b c d e f g h : Nat} (ha : a < 256) (hb : b < 256)
    (hc : c < 256) (hd : d < 256) (he : e < 256) (hf : f < 256) (hg : g < 256)
    (hh : h < 256) : be8 (rd8 [a, b, c, d, e, f, g, h]) = [a, b, c, d, e, f, g, h] := by
  rw [rd8_explicit]
  simp only [be8, List.cons.injEq, and_true]
  refine ⟨?_, ?_, ?_, ?_, ?_, ?_, ?_, ?_⟩ <;> omega

theorem rd2_be2 {n : Nat} (h : n < 2 ^ 16) : rd2 (be2 n) = n := by
  simp only [rd2, be2, List.getD_cons_zero, List.getD_cons_succ]
  omega

theorem rd4_be4 {n : Nat} (h : n < 2 ^ 32) : rd4 (be4 n) = n := by
  simp only [rd4, be4, List.getD_cons_zero, List.getD_cons_succ]
  omega

theorem rd8_be8 {n : Nat} (h : n < 2 ^ 64) : rd8 (be8 n) = n := by
  simp only [rd8, be8, List.getD_cons_zero, List.getD_cons_succ]
  omega

/-- Characterization of `parse_packet` on an input split as
5 magic/version bytes ++ 23 middle header bytes ++ 4 checksum bytes ++
payload: the magic/version check, then the CRC check over the header with
zeroed checksum, then the decoded field dictionary. -/
theorem parse_packet_char (pre mid ck fd : List Nat)
    (hpre : pre.length = 5) (hmid : mid.length = 23) (hck : ck.length = 4)
    (hb : ∀ b ∈ mid, b < 256) :
    parse_packet (pre ++ mid ++ ck ++ fd) =
      if pre ≠ [69, 83, 80, 49, 1] then none
      else if crc32 (pre ++ mid ++ [0, 0, 0, 0] ++ fd) ≠ rd4 ck then none
      else some ⟨mid.getD 0 0, rd4 (mid.drop 19), rd4 (mid.drop 5),
        rd8 (mid.drop 9), rd2 (mid.drop 17), fd, rd4 (mid.drop 1)⟩ := by
  obtain ⟨p0, pre, rfl, hpre0⟩ := len_succ_cons hpre
  obtain ⟨p1, pre, rfl, hpre1⟩ := len_succ_cons hpre0
  obtain ⟨p2, pre, rfl, hpre2⟩ := len_succ_cons hpre1
  obtain ⟨p3, pre, rfl, hpre3⟩ := len_succ_cons hpre2
  obtain ⟨p4, pre, rfl, hpre4⟩ := len_succ_cons hpre3
  obtain rfl : pre = [] := List.length_eq_zero.mp hpre4
  obtain ⟨m0, mid, rfl, hmid0⟩ := len_succ_cons hmid
  obtain ⟨m1, mid, rfl, hmid1⟩ := len_succ_cons hmid0
  obtain ⟨m2, mid, rfl, hmid2⟩ := len_succ_cons hmid1
  obtain ⟨m3, mid, rfl, hmid3⟩ := len_succ_cons hmid2
  obtain ⟨m4, mid, rfl, hmid4⟩ := len_succ_cons hmid3
  obtain ⟨m5, mid, rfl, hmid5⟩ := len_succ_cons hmid4
  obtain ⟨m6, mid, rfl, hmid6⟩ := len_succ_cons hmid5
  obtain ⟨m7, mid, rfl, hmid7⟩ := len_succ_cons hmid6
  obtain ⟨m8, mid, rfl, hmid8⟩ := len_succ_cons hmid7
  obtain ⟨m9, mid, rfl, hmid9⟩ := len_succ_cons hmid8
  obtain ⟨m10, mid, rfl, hmid10⟩ := len_succ_cons hmid9
  obtain ⟨m11, mid, rfl, hmid11⟩ := len_succ_cons hmid10
  obtain ⟨m12, mid, rfl, hmid12⟩ := len_succ_cons hmid11
  obtain ⟨m13, mid, rfl, hmid13⟩ := len_succ_cons hmid12
  obtain ⟨m14, mid, rfl, hmid14⟩ := len_succ_cons hmid13
  obtain ⟨m15, mid, rfl, hmid15⟩ := len_succ_cons hmid14
  obtain ⟨m16, mid, rfl, hmid16⟩ := len_succ_cons hmid15
  obtain ⟨m17, mid, rfl, hmid17⟩ := len_succ_cons hmid16
  obtain ⟨m18, mid, rfl, hmid18⟩ := len_succ_cons hmid17
  obtain ⟨m19, mid, rfl, hmid19⟩ := len_succ_cons hmid18
  obtain ⟨m20, mid, rfl, hmid20⟩ := len_succ_cons hmid19
  obtain ⟨m21, mid, rfl, hmid21⟩ := len_succ_cons hmid20
  obtain ⟨m22, mid, rfl, hmid22⟩ := len_succ_cons hmid21
  obtain rfl : mid = [] := List.length_eq_zero.mp hmid22
  obtain ⟨k0, ck, rfl, hck0⟩ := len_succ_cons hck
  obtain ⟨k1, ck, rfl, hck1⟩ := len_succ_cons hck0
  obtain ⟨k2, ck, rfl, hck2⟩ := len_succ_cons hck1
  obtain ⟨k3, ck, rfl, hck3⟩ := len_succ_cons hck2
  obtain rfl : ck = [] := List.length_eq_zero.mp hck3
  simp only [List.mem_cons, List.not_mem_nil, or_false, forall_eq_or_imp,
    forall_eq] at hb
  by_cases hm : p0 = 69 ∧ p1 = 83 ∧ p2 = 80 ∧ p3 = 49 ∧ p4 = 1
  · obtain ⟨rfl, rfl, rfl, rfl, rfl⟩ := hm
    have hz : make_header m0 (rd4 [m19, m20, m21, m22]) (rd4 [m5, m6, m7, m8])
        (rd2 [m17, m18]) (rd8 [m9, m10, m11, m12, m13, m14, m15, m16]) 0
        (rd4 [m1, m2, m3, m4]) =
        [69, 83, 80, 49, 1, m0, m1, m2, m3, m4, m5, m6, m7, m8, m9, m10, m11,
         m12, m13, m14, m15, m16, m17, m18, m19, m20, m21, m22, 0, 0, 0, 0] := by
      rw [make_header, PROTOCOL_ID, ESP_VERSION,
        be4_rd4 hb.2.1 hb.2.2.1 hb.2.2.2.1 hb.2.2.2.2.1,
        be4_rd4 hb.2.2.2.2.2.1 hb.2.2.2.2.2.2.1 hb.2.2.2.2.2.2.2.1
          hb.2.2.2.2.2.2.2.2.1,
        be8_rd8 hb.2.2.2.2.2.2.2.2.2.1 hb.2.2.2.2.2.2.2.2.2.2.1
          hb.2.2.2.2.2.2.2.2.2.2.2.1 hb.2.2.2.2.2.2.2.2.2.2.2.2.1
          hb.2.2.2.2.2.2.2.2.2.2.2.2.2.1 hb.2.2.2.2.2.2.2.2.2.2.2.2.2.2.1
          hb.2.2.2.2.2.2.2.2.2.2.2.2.2.2.2.1 hb.2.2.2.2.2.2.2.2.2.2.2.2.2.2.2.2.1,
        be2_rd2 hb.2.2.2.2.2.2.2.2.2.2.2.2.2.2.2.2.2.1
          hb.2.2.2.2.2.2.2.2.2.2.2.2.2.2.2.2.2.2.1,
        be4_rd4 hb.2.2.2.2.2.2.2.2.2.2.2.2.2.2.2.2.2.2.2.1
          hb.2.2.2.2.2.2.2.2.2.2.2.2.2.2.2.2.2.2.2.2.1
          hb.2.2.2.2.2.2.2.2.2.2.2.2.2.2.2.2.2.2.2.2.2.1
          hb.2.2.2.2.2.2.2.2.2.2.2.2.2.2.2.2.2.2.2.2.2.2]
      have hm0 : m0 % 256 = m0 := Nat.mod_eq_of_lt hb.1
      simp [be2, be4, hm0]
    simp only [parse_packet, List.cons_append, List.nil_append, hz]
    rw [if_neg (show ¬(([69, 83, 80, 49] : List Nat) ≠ PROTOCOL_ID ∨
      (1 : Nat) ≠ ESP_VERSION) by simp [PROTOCOL_ID, ESP_VERSION])]
    rw [if_neg (show ¬(([69, 83, 80, 49, 1] : List Nat) ≠ [69, 83, 80, 49, 1]) by simp)]
    rfl
  · have hne : p0 :: p1 :: p2 :: p3 :: p4 :: ([] : List Nat) ≠ [69, 83, 80, 49, 1] := by
      simp only [ne_eq, List.cons.injEq, and_true]
      tauto
    have hne2 : [p0, p1, p2, p3] ≠ PROTOCOL_ID ∨ p4 ≠ ESP_VERSION := by
      simp only [PROTOCOL_ID, ESP_VERSION, ne_eq, List.cons.injEq, and_true]
      tauto
    simp only [parse_packet, List.cons_append, List.nil_append]
    rw [if_pos hne2, if_pos hne]

/-! ## CRC-32 range and the codec roundtrip -/

theorem crcBit_lt {s : Nat} (h : s < 2 ^ 32) : crcBit s < 2 ^ 32 := by
  unfold crcBit
  have h1 : s >>> 1 < 2 ^ 32 := by
    rw [Nat.shiftRight_eq_div_pow]
    omega
  split
  · exact Nat.xor_lt_two_pow h1 (by decide)
  · exact h1

theorem crcBitN_lt {s : Nat} (n : Nat) (h : s < 2 ^ 32) : crcBitN n s < 2 ^ 32 := by
  induction n generalizing s with
  | zero => exact h
  | succ n ih => exact ih (crcBit_lt h)

theorem crcByte_lt {s b : Nat} (hs : s < 2 ^ 32) (hb : b < 2 ^ 32) :
    crcByte s b < 2 ^ 32 :=
  crcBitN_lt 8 (Nat.xor_lt_two_pow hs hb)

theorem crc_update_lt {s : Nat} {l : List Nat} (hs : s < 2 ^ 32)
    (hl : ∀ b ∈ l, b < 2 ^ 32) : crc_update s l < 2 ^ 32 := by
  induction l generalizing s with
  | nil => exact hs
  | cons b t ih =>
    exact ih (crcByte_lt hs (hl b (by simp))) (fun x hx => hl x (by simp [hx]))

theorem crc32_lt {l : List Nat} (hl : ∀ b ∈ l, b < 2 ^ 32) : crc32 l < 2 ^ 32 :=
  Nat.xor_lt_two_pow (crc_update_lt (by decide) hl) (by decide)

theorem rd4_be4_append {n : Nat} (r : List Nat) (h : n < 2 ^ 32) :
    rd4 (be4 n ++ r) = n := by
  simp only [rd4, be4, List.cons_append, List.getD_cons_zero,
    List.getD_cons_succ]
  omega

theorem rd8_be8_append {n : Nat} (r : List Nat) (h : n < 2 ^ 64) :
    rd8 (be8 n ++ r) = n := by
  simp only [rd8, be8, List.cons_append, List.getD_cons_zero,
    List.getD_cons_succ]
  omega

theorem rd2_be2_append {n : Nat} (r : List Nat) (h : n < 2 ^ 16) :
    rd2 (be2 n ++ r) = n := by
  simp only [rd2, be2, List.cons_append, List.getD_cons_zero,
    List.getD_cons_succ]
  omega

/-- The 23 header bytes strictly between magic/version and the checksum
field, as laid out by `make_header`. -/
def header_mid (mt snap sq tsv pl pid : Nat) : List Nat :=
  [mt % 256] ++ be4 snap ++ be4 sq ++ be8 tsv ++ be2 pl ++ be4 pid

theorem make_header_split (mt pid sq pl tsv c snap : Nat) :
    make_header mt pid sq pl tsv c snap =
      [69, 83, 80, 49, 1] ++ header_mid mt snap sq tsv pl pid ++ be4 c := by
  simp [make_header, header_mid, PROTOCOL_ID, ESP_VERSION, be2, be4, be8]

theorem header_mid_length (mt snap sq tsv pl pid : Nat) :
    (header_mid mt snap sq tsv pl pid).length = 23 := by
  simp [header_mid, be2, be4, be8]

theorem header_mid_bytes_lt (mt snap sq tsv pl pid : Nat) :
    ∀ b ∈ header_mid mt snap sq tsv pl pid, b < 256 := by
  simp only [header_mid, be2, be4, be8, List.cons_append, List.nil_append,
    List.mem_cons, List.not_mem_nil, or_false]
  rintro b (rfl | rfl | rfl | rfl | rfl | rfl | rfl | rfl | rfl | rfl | rfl |
    rfl | rfl | rfl | rfl | rfl | rfl | rfl | rfl | rfl | rfl | rfl | rfl) <;>
    exact Nat.mod_lt _ (by decide)

theorem be4_zero : be4 0 = [0, 0, 0, 0] := by simp [be4]

/-- Roundtrip of one emitted fragment: a header produced by `make_header`
with the checksum computed as `build_packet` does, followed by the fragment
body, parses back to exactly the original fields. -/
theorem parse_packet_build (mt pid sq tsv snap : Nat) (fd : List Nat)
    (hmt : mt < 256) (hpid : pid < 2 ^ 32) (hsq : sq < 2 ^ 32)
    (htv : tsv < 2 ^ 64) (hsnap : snap < 2 ^ 32) (hpl : fd.length < 2 ^ 16)
    (hfd : ∀ b ∈ fd, b < 256) :
    parse_packet (make_header mt pid sq fd.length tsv
        (crc32 (make_header mt pid sq fd.length tsv 0 snap ++ fd)) snap ++ fd) =
      some ⟨mt, pid, sq, tsv, fd.length, fd, snap⟩ := by
  set c := crc32 (make_header mt pid sq fd.length tsv 0 snap ++ fd) with hc
  have hclt : c < 2 ^ 32 := by
    rw [hc]
    refine crc32_lt ?_
    intro b hbmem
    rw [make_header_split] at hbmem
    simp only [List.append_assoc, List.mem_append, List.mem_cons,
      List.not_mem_nil, or_false] at hbmem
    rcases hbmem with (rfl | rfl | rfl | rfl | rfl) | hbmem | hbmem | hbmem
    · decide
    · decide
    · decide
    · decide
    · decide
    · exact Nat.lt_of_lt_of_le (header_mid_bytes_lt _ _ _ _ _ _ b hbmem) (by decide)
    · have : b = 0 := by simpa [be4_zero] using hbmem
      omega
    · exact Nat.lt_of_lt_of_le (hfd b hbmem) (by decide)
  rw [make_header_split]
  rw [parse_packet_char [69, 83, 80, 49, 1] (header_mid mt snap sq tsv fd.length pid)
    (be4 c) fd rfl (header_mid_length _ _ _ _ _ _) (by simp [be4])
    (header_mid_bytes_lt _ _ _ _ _ _)]
  rw [if_neg (by simp)]
  have hcrc : crc32 ([69, 83, 80, 49, 1] ++
      header_mid mt snap sq tsv fd.length pid ++ [0, 0, 0, 0] ++ fd) = c := by
    rw [hc, make_header_split, be4_zero]
  rw [hcrc, rd4_be4 hclt, if_neg (by simp)]
  have hmid : header_mid mt snap sq tsv fd.length pid =
      mt % 256 :: (be4 snap ++ be4 sq ++ be8 tsv ++ be2 fd.length ++ be4 pid) := by
    simp [header_mid]
  congr 1
  rw [hmid]
  simp only [List.getD_cons_zero, List.drop_succ_cons]
  have h1 : List.drop 0 (be4 snap ++ be4 sq ++ be8 tsv ++ be2 fd.length ++ be4 pid) =
      be4 snap ++ (be4 sq ++ be8 tsv ++ be2 fd.length ++ be4 pid) := by
    simp [List.append_assoc]
  have h4 : List.drop 4 (be4 snap ++ be4 sq ++ be8 tsv ++ be2 fd.length ++ be4 pid) =
      be4 sq ++ (be8 tsv ++ be2 fd.length ++ be4 pid) := by
    simp [be4, be2, be8, List.append_assoc]
  have h8 : List.drop 8 (be4 snap ++ be4 sq ++ be8 tsv ++ be2 fd.length ++ be4 pid) =
      be8 tsv ++ (be2 fd.length ++ be4 pid) := by
    simp [be4, be2, be8, List.append_assoc]
  have h16 : List.drop 16 (be4 snap ++ be4 sq ++ be8 tsv ++ be2 fd.length ++ be4 pid) =
      be2 fd.length ++ be4 pid := by
    simp [be4, be2, be8, List.append_assoc]
  have h18 : List.drop 18 (be4 snap ++ be4 sq ++ be8 tsv ++ be2 fd.length ++ be4 pid) =
      be4 pid := by
    simp [be4, be2, be8, List.append_assoc]
  rw [h1, h4, h8, h16, h18]
  rw [rd4_be4_append _ hsnap, rd4_be4_append _ hsq, rd8_be8_append _ htv,
    rd2_be2_append _ hpl, rd4_be4 hpid]
  simp [Nat.mod_eq_of_lt hmt]

/-! ## CRC-32 catches every single-bit flip

The CRC register update is linear over GF(2): the shift-and-conditional-xor
step distributes over `^^^`.  A flip of bit `k` of byte `j` therefore
changes the final register value by a fixed nonzero delta (the image of
`2^k` under the remaining register steps), which never vanishes because the
register step is injective on 32-bit states. -/

theorem shiftRight_one_xor (x y : Nat) : (x ^^^ y) >>> 1 = x >>> 1 ^^^ y >>> 1 := by
  apply Nat.eq_of_testBit_eq
  intro i
  simp [Nat.testBit_shiftRight, Nat.testBit_xor]

theorem xor_rotate (a b c : Nat) : a ^^^ (b ^^^ c) = b ^^^ (a ^^^ c) := by
  rw [← Nat.xor_assoc, Nat.xor_comm a b, Nat.xor_assoc]

theorem crcBit_linear (x y : Nat) : crcBit (x ^^^ y) = crcBit x ^^^ crcBit y := by
  have key : ∀ s : Nat, crcBit s = s >>> 1 ^^^ (if s &&& 1 = 1 then CRC_POLY else 0) := by
    intro s
    unfold crcBit
    split <;> simp
  rw [key, key, key, shiftRight_one_xor, Nat.and_xor_distrib_right]
  have hx : x &&& 1 = 0 ∨ x &&& 1 = 1 := by rw [Nat.and_one_is_mod]; omega
  have hy : y &&& 1 = 0 ∨ y &&& 1 = 1 := by rw [Nat.and_one_is_mod]; omega
  rcases hx with hx | hx <;> rcases hy with hy | hy <;> simp only [hx, hy] <;>
    simp [Nat.xor_assoc, Nat.xor_comm, xor_rotate, Nat.xor_self, Nat.xor_zero,
      Nat.zero_xor]
  rw [← Nat.xor_assoc, Nat.xor_self, Nat.zero_xor]

theorem crcBitN_linear (n x y : Nat) :
    crcBitN n (x ^^^ y) = crcBitN n x ^^^ crcBitN n y := by
  induction n generalizing x y with
  | zero => rfl
  | succ n ih => simp only [crcBitN, crcBit_linear, ih]

theorem crcBitN_add (m n s : Nat) : crcBitN m (crcBitN n s) = crcBitN (n + m) s := by
  induction n generalizing s with
  | zero => rw [Nat.zero_add]; rfl
  | succ n ih => simp only [crcBitN, ih, Nat.succ_add]

theorem crcByte_xor_state (s d b : Nat) :
    crcByte (s ^^^ d) b = crcByte s b ^^^ crcBitN 8 d := by
  unfold crcByte
  rw [show s ^^^ d ^^^ b = (s ^^^ b) ^^^ d by
    rw [Nat.xor_assoc, Nat.xor_assoc, Nat.xor_comm d b]]
  exact crcBitN_linear 8 _ _

theorem crc_update_xor_state (l : List Nat) (s d : Nat) :
    crc_update (s ^^^ d) l = crc_update s l ^^^ crcBitN (8 * l.length) d := by
  induction l generalizing s d with
  | nil => simp [crc_update, crcBitN]
  | cons b t ih =>
    simp only [crc_update, List.foldl_cons] at *
    rw [crcByte_xor_state, ih, List.length_cons, crcBitN_add]
    ring_nf

theorem crcBit_zero_eq : crcBit 0 = 0 := by decide

theorem crcBitN_zero_eq (n : Nat) : crcBitN n 0 = 0 := by
  induction n with
  | zero => rfl
  | succ n ih => simp [crcBitN, crcBit_zero_eq, ih]

theorem crcBit_ne_zero {s : Nat} (h0 : s ≠ 0) (h32 : s < 2 ^ 32) : crcBit s ≠ 0 := by
  unfold crcBit
  split
  · intro hc
    have h2 := Nat.xor_eq_zero.mp hc
    rw [Nat.shiftRight_eq_div_pow, CRC_POLY] at h2
    omega
  · next hcond =>
    have hpar : s % 2 = 0 := by
      rw [Nat.and_one_is_mod] at hcond
      omega
    rw [Nat.shiftRight_eq_div_pow]
    intro hc
    rw [Nat.pow_one] at hc
    omega

theorem crcBitN_ne_zero {s : Nat} (n : Nat) (h0 : s ≠ 0) (h32 : s < 2 ^ 32) :
    crcBitN n s ≠ 0 := by
  induction n generalizing s with
  | zero => exact h0
  | succ n ih => exact ih (crcBit_ne_zero h0 h32) (crcBit_lt h32)

/-- The per-position flip deltas are nonzero 32-bit values. -/
theorem crc_flip_delta (k : Nat) (hk : k < 8) :
    crcBitN 8 (2 ^ k) ≠ 0 ∧ crcBitN 8 (2 ^ k) < 2 ^ 32 := by
  interval_cases k <;> exact ⟨by decide, by decide⟩

theorem crc_update_flip (l : List Nat) (j k : Nat) (hj : j < l.length) (s : Nat) :
    crc_update s (l.set j (l.getD j 0 ^^^ 2 ^ k)) =
      crc_update s l ^^^ crcBitN (8 * (l.length - (j + 1))) (crcBitN 8 (2 ^ k)) := by
  have hdecomp : l = l.take j ++ l.getD j 0 :: l.drop (j + 1) := by
    conv_lhs => rw [← List.take_append_drop j l]
    rw [List.drop_eq_getElem_cons hj]
    simp [List.getD_eq_getElem?_getD, List.getElem?_eq_getElem hj]
  rw [List.set_eq_take_cons_drop _ hj]
  conv_rhs => rw [hdecomp]
  simp only [crc_update, List.foldl_append, List.foldl_cons]
  have hbyte : crcByte (List.foldl crcByte s (l.take j)) (l.getD j 0 ^^^ 2 ^ k) =
      crcByte (List.foldl crcByte s (l.take j)) (l.getD j 0) ^^^ crcBitN 8 (2 ^ k) := by
    unfold crcByte
    rw [← Nat.xor_assoc]
    exact crcBitN_linear 8 _ _
  rw [hbyte]
  have hx := crc_update_xor_state (l.drop (j + 1))
    (crcByte (List.foldl crcByte s (l.take j)) (l.getD j 0)) (crcBitN 8 (2 ^ k))
  simp only [crc_update] at hx
  rw [hx, List.length_drop]
  have hlen : (l.take j ++ l.getD j 0 :: l.drop (j + 1)).length = l.length := by
    rw [← hdecomp]
  rw [hlen]

/-- Flipping any single bit of any byte changes the CRC-32. -/
theorem crc32_flipBit_ne (l : List Nat) (j k : Nat) (hj : j < l.length)
    (hk : k < 8) : crc32 (flipBit l j k) ≠ crc32 l := by
  unfold crc32 flipBit
  rw [crc_update_flip l j k hj]
  intro hc
  have hdelta := crc_flip_delta k hk
  have hne := crcBitN_ne_zero (8 * (l.length - (j + 1))) hdelta.1 hdelta.2
  apply hne
  set U := crc_update 0xFFFFFFFF l with hU
  set T := crcBitN (8 * (l.length - (j + 1))) (crcBitN 8 (2 ^ k)) with hT
  have hUT : U ^^^ T = U := by
    have h2 := congrArg (· ^^^ 0xFFFFFFFF) hc
    simpa [Nat.xor_assoc, Nat.xor_self, Nat.xor_zero] using h2
  calc T = U ^^^ (U ^^^ T) := by
        rw [← Nat.xor_assoc, Nat.xor_self, Nat.zero_xor]
    _ = U ^^^ U := by rw [hUT]
    _ = 0 := Nat.xor_self _

theorem xor_two_pow_ne (a k : Nat) : a ^^^ 2 ^ k ≠ a := by
  intro h
  have h2 : 2 ^ k = 0 := by
    calc 2 ^ k = a ^^^ (a ^^^ 2 ^ k) := by
          rw [← Nat.xor_assoc, Nat.xor_self, Nat.zero_xor]
      _ = a ^^^ a := by rw [h]
      _ = 0 := Nat.xor_self a
  exact (Nat.two_pow_pos k).ne' h2

theorem make_header_length (mt pid sq pl tsv c snap : Nat) :
    (make_header mt pid sq pl tsv c snap).length = 32 := by
  simp [make_header, PROTOCOL_ID, be2, be4, be8]

theorem rd4_set_flip {d1 d2 d3 d4 : Nat} (h1 : d1 < 256) (h2 : d2 < 256)
    (h3 : d3 < 256) (h4 : d4 < 256) (i k : Nat) (hi : i < 4) (hk : k < 8) :
    rd4 (([d1, d2, d3, d4].set i ([d1, d2, d3, d4].getD i 0 ^^^ 2 ^ k))) ≠
      rd4 [d1, d2, d3, d4] := by
  have hp : 2 ^ k < 2 ^ 8 := Nat.pow_lt_pow_right (by omega) hk
  interval_cases i <;>
    simp only [List.set_cons_zero, List.set_cons_succ, List.getD_cons_zero,
      List.getD_cons_succ, rd4_explicit] <;>
    intro he <;>
    [exact xor_two_pow_ne d1 k (by have := Nat.xor_lt_two_pow (n := 8) h1 hp; omega);
     exact xor_two_pow_ne d2 k (by have := Nat.xor_lt_two_pow (n := 8) h2 hp; omega);
     exact xor_two_pow_ne d3 k (by have := Nat.xor_lt_two_pow (n := 8) h3 hp; omega);
     exact xor_two_pow_ne d4 k (by have := Nat.xor_lt_two_pow (n := 8) h4 hp; omega)]

/-- Integrity of the codec: flipping any single bit of an emitted packet
makes `parse_packet` reject it (wrong magic/version for the first five
bytes, a stale stored digest for a flip inside the digest field, and a
changed computed digest everywhere else). -/
theorem parse_packet_build_flip (mt pid sq tsv snap : Nat) (fd : List Nat)
    (hfd : ∀ b ∈ fd, b < 256) (j k : Nat) (hk : k < 8) (hj : j < 32 + fd.length) :
    parse_packet (flipBit (make_header mt pid sq fd.length tsv
      (crc32 (make_header mt pid sq fd.length tsv 0 snap ++ fd)) snap ++ fd) j k) =
      none := by
  set c := crc32 (make_header mt pid sq fd.length tsv 0 snap ++ fd) with hc
  have hclt : c < 2 ^ 32 := by
    rw [hc]
    refine crc32_lt ?_
    intro b hbmem
    rw [make_header_split] at hbmem
    simp only [List.append_assoc, List.mem_append, List.mem_cons,
      List.not_mem_nil, or_false] at hbmem
    rcases hbmem with (rfl | rfl | rfl | rfl | rfl) | hbmem | hbmem | hbmem
    · decide
    · decide
    · decide
    · decide
    · decide
    · exact Nat.lt_of_lt_of_le (header_mid_bytes_lt _ _ _ _ _ _ b hbmem) (by decide)
    · have : b = 0 := by simpa [be4_zero] using hbmem
      omega
    · exact Nat.lt_of_lt_of_le (hfd b hbmem) (by decide)
  set A : List Nat := [69, 83, 80, 49, 1] with hA
  set M := header_mid mt snap sq tsv fd.length pid with hM
  have hMlen : M.length = 23 := header_mid_length _ _ _ _ _ _
  have hMbytes : ∀ b ∈ M, b < 256 := header_mid_bytes_lt _ _ _ _ _ _
  have hKlen : (be4 c).length = 4 := by simp [be4]
  have hsplit : make_header mt pid sq fd.length tsv c snap ++ fd =
      A ++ M ++ be4 c ++ fd := by
    rw [make_header_split]
  have hzero : make_header mt pid sq fd.length tsv 0 snap ++ fd =
      A ++ M ++ [0, 0, 0, 0] ++ fd := by
    rw [make_header_split, be4_zero]
  rw [hsplit]
  unfold flipBit
  have hrd4c : rd4 (be4 c) = c := rd4_be4 hclt
  have hAlen : A.length = 5 := by simp [hA]
  have hAM : (A ++ M).length = 28 := by simp [hA, hMlen]
  have hAMK : (A ++ M ++ be4 c).length = 32 := by simp [hA, hMlen, be4]
  have hAMZ : (A ++ M ++ [0, 0, 0, 0]).length = 32 := by simp [hA, hMlen]
  by_cases hj5 : j < 5
  · -- flip inside magic/version: the protocol/version check rejects
    have hgetD : (A ++ M ++ be4 c ++ fd).getD j 0 = A.getD j 0 := by
      rw [List.getD_append _ _ _ _ (by rw [hAMK]; omega),
        List.getD_append _ _ _ _ (by rw [hAM]; omega),
        List.getD_append _ _ _ _ (by rw [hAlen]; omega)]
    have hset : (A ++ M ++ be4 c ++ fd).set j (A.getD j 0 ^^^ 2 ^ k) =
        A.set j (A.getD j 0 ^^^ 2 ^ k) ++ M ++ be4 c ++ fd := by
      rw [List.set_append, if_pos (by rw [hAMK]; omega),
        List.set_append, if_pos (by rw [hAM]; omega),
        List.set_append, if_pos (by rw [hAlen]; omega)]
    rw [hgetD, hset, parse_packet_char _ M (be4 c) fd
      (by rw [List.length_set]; exact hAlen) hMlen hKlen hMbytes]
    rw [if_pos]
    interval_cases j <;>
      simp only [hA, List.set_cons_zero, List.set_cons_succ,
        List.getD_cons_zero, List.getD_cons_succ, ne_eq, List.cons.injEq,
        and_true, true_and] <;>
      exact xor_two_pow_ne _ k
  · by_cases hj28 : j < 28
    · -- flip inside the covered header fields: the digest check rejects
      have hgetD : (A ++ M ++ be4 c ++ fd).getD j 0 = M.getD (j - 5) 0 := by
        rw [List.getD_append _ _ _ _ (by rw [hAMK]; omega),
          List.getD_append _ _ _ _ (by rw [hAM]; omega),
          List.getD_append_right _ _ _ _ (by rw [hAlen]; omega), hAlen]
      have hset : (A ++ M ++ be4 c ++ fd).set j (M.getD (j - 5) 0 ^^^ 2 ^ k) =
          A ++ M.set (j - 5) (M.getD (j - 5) 0 ^^^ 2 ^ k) ++ be4 c ++ fd := by
        rw [List.set_append, if_pos (by rw [hAMK]; omega),
          List.set_append, if_pos (by rw [hAM]; omega),
          List.set_append, if_neg (by rw [hAlen]; omega), hAlen]
      set v := M.getD (j - 5) 0 ^^^ 2 ^ k with hv
      have hvlt : v < 256 := by
        have hmem : M.getD (j - 5) 0 ∈ M := by
          rw [List.getD_eq_getElem?_getD,
            List.getElem?_eq_getElem (by omega : j - 5 < M.length)]
          exact List.getElem_mem _
        have h1 := hMbytes _ hmem
        have hp : 2 ^ k < 2 ^ 8 := Nat.pow_lt_pow_right (by omega) hk
        have := Nat.xor_lt_two_pow (n := 8) h1 hp
        omega
      rw [hgetD, hset, parse_packet_char A _ (be4 c) fd hAlen
        (by rw [List.length_set]; exact hMlen)
        hKlen
        (by
          intro b hbmem
          rcases List.mem_or_eq_of_mem_set hbmem with hmem | rfl
          · exact hMbytes b hmem
          · exact hvlt)]
      rw [if_neg (by simp [hA]), hrd4c]
      rw [if_pos]
      -- the zero-checksum stream differs from the original one in one byte
      have hm : A ++ M.set (j - 5) v ++ [0, 0, 0, 0] ++ fd =
          (A ++ M ++ [0, 0, 0, 0] ++ fd).set j
            ((A ++ M ++ [0, 0, 0, 0] ++ fd).getD j 0 ^^^ 2 ^ k) := by
        rw [List.getD_append _ _ _ _ (by rw [hAMZ]; omega),
          List.getD_append _ _ _ _ (by rw [hAM]; omega),
          List.getD_append_right _ _ _ _ (by rw [hAlen]; omega), hAlen,
          List.set_append, if_pos (by rw [hAMZ]; omega),
          List.set_append, if_pos (by rw [hAM]; omega),
          List.set_append, if_neg (by rw [hAlen]; omega), hAlen]
      rw [hm, ← hzero, hc]
      exact crc32_flipBit_ne _ j k
        (by rw [hzero]; simp only [List.length_append, hAMZ]; omega) hk
    · by_cases hj32 : j < 32
      · -- flip inside the stored digest: calc and stored digest disagree
        have hgetD : (A ++ M ++ be4 c ++ fd).getD j 0 = (be4 c).getD (j - 28) 0 := by
          rw [List.getD_append _ _ _ _ (by rw [hAMK]; omega),
            List.getD_append_right _ _ _ _ (by rw [hAM]; omega), hAM]
        have hset : (A ++ M ++ be4 c ++ fd).set j
            ((be4 c).getD (j - 28) 0 ^^^ 2 ^ k) =
            A ++ M ++ (be4 c).set (j - 28) ((be4 c).getD (j - 28) 0 ^^^ 2 ^ k) ++ fd := by
          rw [List.set_append, if_pos (by rw [hAMK]; omega),
            List.set_append, if_neg (by rw [hAM]; omega), hAM]
        rw [hgetD, hset, parse_packet_char A M _ fd hAlen hMlen
          (by rw [List.length_set]; exact hKlen) hMbytes]
        rw [if_neg (by simp [hA])]
        rw [if_pos]
        rw [← hzero, ← hc]
        intro hcontra
        have hKne : rd4 ((be4 c).set (j - 28) ((be4 c).getD (j - 28) 0 ^^^ 2 ^ k)) ≠
            rd4 (be4 c) := by
          have hb1 : c / 2 ^ 24 % 256 < 256 := Nat.mod_lt _ (by omega)
          have hb2 : c / 2 ^ 16 % 256 < 256 := Nat.mod_lt _ (by omega)
          have hb3 : c / 2 ^ 8 % 256 < 256 := Nat.mod_lt _ (by omega)
          have hb4 : c % 256 < 256 := Nat.mod_lt _ (by omega)
          have hflip := rd4_set_flip hb1 hb2 hb3 hb4 (j - 28) k (by omega) hk
          simpa [be4] using hflip
        rw [hrd4c] at hKne
        exact hKne hcontra.symm
      · -- flip inside the payload: the digest check rejects
        have hgetD : (A ++ M ++ be4 c ++ fd).getD j 0 = fd.getD (j - 32) 0 := by
          rw [List.getD_append_right _ _ _ _ (by rw [hAMK]; omega), hAMK]
        have hset : (A ++ M ++ be4 c ++ fd).set j (fd.getD (j - 32) 0 ^^^ 2 ^ k) =
            A ++ M ++ be4 c ++ fd.set (j - 32) (fd.getD (j - 32) 0 ^^^ 2 ^ k) := by
          rw [List.set_append, if_neg (by rw [hAMK]; omega), hAMK]
        rw [hgetD, hset, parse_packet_char A M (be4 c) _ hAlen hMlen hKlen hMbytes]
        rw [if_neg (by simp [hA]), hrd4c]
        rw [if_pos]
        have hm : A ++ M ++ [0, 0, 0, 0] ++ fd.set (j - 32)
            (fd.getD (j - 32) 0 ^^^ 2 ^ k) =
            (A ++ M ++ [0, 0, 0, 0] ++ fd).set j
              ((A ++ M ++ [0, 0, 0, 0] ++ fd).getD j 0 ^^^ 2 ^ k) := by
          rw [List.getD_append_right _ _ _ _ (by rw [hAMZ]; omega), hAMZ,
            List.set_append, if_neg (by rw [hAMZ]; omega), hAMZ]
        rw [hm, ← hzero, hc]
        exact crc32_flipBit_ne _ j k
          (by rw [hzero]; simp only [List.length_append, hAMZ]; omega) hk

/-- Concatenating the fragment slices of `build_packet` restores the
payload. -/
theorem chunks_flatten (c : Nat) (hc : 0 < c) :
    ∀ (n : Nat) (l : List Nat), l.length ≤ n →
      ((List.range ((l.length + c - 1) / c)).map
        (fun i => (l.drop (i * c)).take c)).flatten = l := by
  intro n
  induction n with
  | zero =>
    intro l hl
    have hnil : l = [] := List.eq_nil_of_length_eq_zero (by omega)
    subst hnil
    have h0 : (([] : List Nat).length + c - 1) / c = 0 := by
      simp only [List.length_nil]
      exact Nat.div_eq_of_lt (by omega)
    rw [h0]
    simp
  | succ n ih =>
    intro l hl
    by_cases hnil : l = []
    · subst hnil
      have h0 : (([] : List Nat).length + c - 1) / c = 0 := by
        simp only [List.length_nil]
        exact Nat.div_eq_of_lt (by omega)
      rw [h0]
      simp
    · have hlpos : 0 < l.length := List.length_pos.mpr hnil
      by_cases hle : l.length ≤ c
      · have htot : (l.length + c - 1) / c = 1 :=
          Nat.div_eq_of_lt_le (by omega) (by omega)
        rw [htot]
        have hr1 : List.range 1 = [0] := rfl
        rw [hr1]
        simp only [List.map_cons, List.map_nil, List.flatten_cons,
          List.flatten_nil, List.append_nil, Nat.zero_mul, List.drop_zero]
        exact List.take_of_length_le hle
      · have hgt : c < l.length := by omega
        have htot : (l.length + c - 1) / c = ((l.drop c).length + c - 1) / c + 1 := by
          rw [List.length_drop]
          have harith : l.length + c - 1 = (l.length - c + c - 1) + c := by omega
          rw [harith, Nat.add_div_right _ hc]
        rw [htot, List.range_succ_eq_map, List.map_cons, List.map_map]
        have hhead : (l.drop (0 * c)).take c = l.take c := by simp
        have htail : (List.range (((l.drop c).length + c - 1) / c)).map
            ((fun i => (l.drop (i * c)).take c) ∘ Nat.succ) =
            (List.range (((l.drop c).length + c - 1) / c)).map
            (fun i => ((l.drop c).drop (i * c)).take c) := by
          refine List.map_congr_left ?_
          intro i _
          simp only [Function.comp]
          rw [List.drop_drop]
          congr 2
          rw [Nat.succ_mul]
          ring
        rw [hhead, htail, List.flatten_cons, ih (l.drop c) (by
          rw [List.length_drop]; omega)]
        exact List.take_append_drop c l

theorem build_packet_empty (mt pid sq snap : Nat) (ts : Nat → Nat) :
    build_packet mt pid sq [] snap ts =
      ([make_header mt pid sq 0 (ts 0)
        (crc32 (make_header mt pid sq 0 (ts 0) 0 snap ++ [])) snap], sq + 1) := by
  simp [build_packet]

theorem build_packet_nonempty (mt pid sq snap : Nat) (ts : Nat → Nat)
    (payload : List Nat) (h : payload ≠ []) :
    build_packet mt pid sq payload snap ts =
      ((List.range ((payload.length + SNAPSHOT_PAYLOAD_LIMIT - 1) /
          SNAPSHOT_PAYLOAD_LIMIT)).map
        (fun i =>
          make_header mt pid (sq + i)
            ((payload.drop (i * SNAPSHOT_PAYLOAD_LIMIT)).take
              SNAPSHOT_PAYLOAD_LIMIT).length (ts i)
            (crc32 (make_header mt pid (sq + i)
              ((payload.drop (i * SNAPSHOT_PAYLOAD_LIMIT)).take
                SNAPSHOT_PAYLOAD_LIMIT).length (ts i) 0 snap ++
              (payload.drop (i * SNAPSHOT_PAYLOAD_LIMIT)).take
                SNAPSHOT_PAYLOAD_LIMIT)) snap ++
          (payload.drop (i * SNAPSHOT_PAYLOAD_LIMIT)).take SNAPSHOT_PAYLOAD_LIMIT),
       sq + (payload.length + SNAPSHOT_PAYLOAD_LIMIT - 1) / SNAPSHOT_PAYLOAD_LIMIT) := by
  rw [build_packet, if_neg (by simpa [List.isEmpty_iff] using h)]

theorem getD_map_range {α : Type} (f : Nat → α) (total i : Nat) (h : i < total)
    (d : α) : ((List.range total).map f).getD i d = f i := by
  rw [List.getD_eq_getElem?_getD, List.getElem?_map, List.getElem?_range h]
  rfl

/-- C4.  For every well-formed input, every packet emitted by
`build_packet` is accepted by `parse_packet` and decodes to the same
`msg_type`, `pkt_id` and `snapshot_id` with consecutive sequence numbers
starting at `start_seq`; the concatenation of the decoded fragment
payloads equals the body; an empty body yields exactly one packet; and
flipping any single bit of an emitted packet makes `parse_packet` return
`none`. -/
theorem C4_codec_roundtrip (mt pid sq snap : Nat) (payload : List Nat)
    (ts : Nat → Nat)
    (hmt : mt < 256) (hpid : pid < 2 ^ 32) (hsnap : snap < 2 ^ 32)
    (hts : ∀ i, ts i < 2 ^ 64)
    (hbytes : ∀ b ∈ payload, b < 256)
    (hsq : sq + (build_packet mt pid sq payload snap ts).1.length ≤ 2 ^ 32) :
    (∀ i, i < (build_packet mt pid sq payload snap ts).1.length →
      ∃ q : ParsedPkt,
        parse_packet ((build_packet mt pid sq payload snap ts).1.getD i []) =
          some q ∧
        q.msg_type = mt ∧ q.pkt_id = pid ∧ q.snapshot_id = snap ∧
        q.seq = sq + i) ∧
    ((build_packet mt pid sq payload snap ts).1.map
      (fun p => ((parse_packet p).map ParsedPkt.payload).getD [])).flatten =
        payload ∧
    (payload = [] → (build_packet mt pid sq payload snap ts).1.length = 1) ∧
    (∀ i j k, i < (build_packet mt pid sq payload snap ts).1.length →
      j < ((build_packet mt pid sq payload snap ts).1.getD i []).length →
      k < 8 →
      parse_packet
        (flipBit ((build_packet mt pid sq payload snap ts).1.getD i []) j k) =
        none) := by
  by_cases hemp : payload = []
  · subst hemp
    rw [build_packet_empty] at hsq ⊢
    simp only [List.length_cons, List.length_nil] at hsq ⊢
    refine ⟨?_, ?_, by intro _; trivial, ?_⟩
    · intro i hi
      have hi0 : i = 0 := by omega
      subst hi0
      refine ⟨⟨mt, pid, sq, ts 0, 0, [], snap⟩, ?_, rfl, rfl, rfl, by simp⟩
      have hgd : ([make_header mt pid sq 0 (ts 0)
          (crc32 (make_header mt pid sq 0 (ts 0) 0 snap ++ [])) snap]).getD 0 [] =
          make_header mt pid sq 0 (ts 0)
          (crc32 (make_header mt pid sq 0 (ts 0) 0 snap ++ [])) snap := rfl
      rw [hgd]
      have := parse_packet_build mt pid sq (ts 0) snap []
        hmt hpid (by omega) (hts 0) hsnap (by decide) (by simp)
      simpa using this
    · have := parse_packet_build mt pid sq (ts 0) snap []
        hmt hpid (by omega) (hts 0) hsnap (by decide) (by simp)
      simp only [List.map_cons, List.map_nil]
      rw [show parse_packet (make_header mt pid sq 0 (ts 0)
          (crc32 (make_header mt pid sq 0 (ts 0) 0 snap ++ [])) snap) =
          some ⟨mt, pid, sq, ts 0, 0, [], snap⟩ by simpa using this]
      rfl
    · intro i j k hi hj hk
      have hi0 : i = 0 := by omega
      subst hi0
      have hgd : ([make_header mt pid sq 0 (ts 0)
          (crc32 (make_header mt pid sq 0 (ts 0) 0 snap ++ [])) snap]).getD 0 [] =
          make_header mt pid sq 0 (ts 0)
          (crc32 (make_header mt pid sq 0 (ts 0) 0 snap ++ [])) snap := rfl
      rw [hgd] at hj ⊢
      have hlen : (make_header mt pid sq 0 (ts 0)
          (crc32 (make_header mt pid sq 0 (ts 0) 0 snap ++ [])) snap).length = 32 :=
        make_header_length _ _ _ _ _ _ _
      have hflip := parse_packet_build_flip mt pid sq (ts 0) snap []
        (by simp) j k hk (by simpa [hlen] using hj)
      simpa using hflip
  · have hlpos : 0 < payload.length := List.length_pos.mpr hemp
    set total := (payload.length + SNAPSHOT_PAYLOAD_LIMIT - 1) /
      SNAPSHOT_PAYLOAD_LIMIT with htotal
    have hbuild := build_packet_nonempty mt pid sq snap ts payload hemp
    have hlen : (build_packet mt pid sq payload snap ts).1.length = total := by
      rw [hbuild]
      simp
    have hfd_len : ∀ i, ((payload.drop (i * SNAPSHOT_PAYLOAD_LIMIT)).take
        SNAPSHOT_PAYLOAD_LIMIT).length < 2 ^ 16 := by
      intro i
      rw [List.length_take]
      have : SNAPSHOT_PAYLOAD_LIMIT = 1168 := by decide
      omega
    have hfd_bytes : ∀ i, ∀ b ∈ (payload.drop (i * SNAPSHOT_PAYLOAD_LIMIT)).take
        SNAPSHOT_PAYLOAD_LIMIT, b < 256 := by
      intro i b hb
      exact hbytes b (List.drop_subset _ _ (List.take_subset _ _ hb))
    have hgetD : ∀ i, i < total →
        (build_packet mt pid sq payload snap ts).1.getD i [] =
        make_header mt pid (sq + i)
          ((payload.drop (i * SNAPSHOT_PAYLOAD_LIMIT)).take
            SNAPSHOT_PAYLOAD_LIMIT).length (ts i)
          (crc32 (make_header mt pid (sq + i)
            ((payload.drop (i * SNAPSHOT_PAYLOAD_LIMIT)).take
              SNAPSHOT_PAYLOAD_LIMIT).length (ts i) 0 snap ++
            (payload.drop (i * SNAPSHOT_PAYLOAD_LIMIT)).take
              SNAPSHOT_PAYLOAD_LIMIT)) snap ++
          (payload.drop (i * SNAPSHOT_PAYLOAD_LIMIT)).take
            SNAPSHOT_PAYLOAD_LIMIT := by
      intro i hi
      rw [hbuild]
      exact getD_map_range _ total i hi []
    have hparse : ∀ i, i < total →
        parse_packet ((build_packet mt pid sq payload snap ts).1.getD i []) =
        some ⟨mt, pid, sq + i, ts i,
          ((payload.drop (i * SNAPSHOT_PAYLOAD_LIMIT)).take
            SNAPSHOT_PAYLOAD_LIMIT).length,
          (payload.drop (i * SNAPSHOT_PAYLOAD_LIMIT)).take SNAPSHOT_PAYLOAD_LIMIT,
          snap⟩ := by
      intro i hi
      rw [hgetD i hi]
      exact parse_packet_build mt pid (sq + i) (ts i) snap _
        hmt hpid (by omega) (hts i) hsnap (hfd_len i) (hfd_bytes i)
    refine ⟨?_, ?_, fun hcontra => absurd hcontra hemp, ?_⟩
    · intro i hi
      rw [hlen] at hi
      exact ⟨_, hparse i hi, rfl, rfl, rfl, rfl⟩
    · rw [hbuild]
      simp only [List.map_map]
      have hcong : (List.range total).map ((fun p =>
          ((parse_packet p).map ParsedPkt.payload).getD []) ∘ (fun i =>
          make_header mt pid (sq + i)
            ((payload.drop (i * SNAPSHOT_PAYLOAD_LIMIT)).take
              SNAPSHOT_PAYLOAD_LIMIT).length (ts i)
            (crc32 (make_header mt pid (sq + i)
              ((payload.drop (i * SNAPSHOT_PAYLOAD_LIMIT)).take
                SNAPSHOT_PAYLOAD_LIMIT).length (ts i) 0 snap ++
              (payload.drop (i * SNAPSHOT_PAYLOAD_LIMIT)).take
                SNAPSHOT_PAYLOAD_LIMIT)) snap ++
            (payload.drop (i * SNAPSHOT_PAYLOAD_LIMIT)).take
              SNAPSHOT_PAYLOAD_LIMIT)) =
          (List.range total).map (fun i =>
            (payload.drop (i * SNAPSHOT_PAYLOAD_LIMIT)).take
              SNAPSHOT_PAYLOAD_LIMIT) := by
        refine List.map_congr_left ?_
        intro i hi
        rw [List.mem_range] at hi
        have hp := hparse i hi
        rw [hgetD i hi] at hp
        simp only [Function.comp]
        rw [hp]
        rfl
      rw [hcong]
      exact chunks_flatten SNAPSHOT_PAYLOAD_LIMIT (by decide) payload.length
        payload (le_refl _)
    · intro i j k hi hj hk
      rw [hlen] at hi
      rw [hgetD i hi] at hj ⊢
      have hplen : (make_header mt pid (sq + i)
          ((payload.drop (i * SNAPSHOT_PAYLOAD_LIMIT)).take
            SNAPSHOT_PAYLOAD_LIMIT).length (ts i)
          (crc32 (make_header mt pid (sq + i)
            ((payload.drop (i * SNAPSHOT_PAYLOAD_LIMIT)).take
              SNAPSHOT_PAYLOAD_LIMIT).length (ts i) 0 snap ++
            (payload.drop (i * SNAPSHOT_PAYLOAD_LIMIT)).take
              SNAPSHOT_PAYLOAD_LIMIT)) snap ++
          (payload.drop (i * SNAPSHOT_PAYLOAD_LIMIT)).take
            SNAPSHOT_PAYLOAD_LIMIT).length =
          32 + ((payload.drop (i * SNAPSHOT_PAYLOAD_LIMIT)).take
            SNAPSHOT_PAYLOAD_LIMIT).length := by
        rw [List.length_append, make_header_length]
      exact parse_packet_build_flip mt pid (sq + i) (ts i) snap _
        (hfd_bytes i) j k hk (by rw [hplen] at hj; exact hj)

/-- Witness for C4: all hypotheses hold at a concrete input
(msg_type 13, pkt_id 7, start_seq 5, body `[1, 2, 3]`, snapshot_id 2), and
the decoded fragment payloads concatenate back to the body there. -/
theorem C4_codec_roundtrip_witness :
    (13 : Nat) < 256 ∧ (7 : Nat) < 2 ^ 32 ∧ (2 : Nat) < 2 ^ 32 ∧
    (∀ i : Nat, (fun _ : Nat => (0 : Nat)) i < 2 ^ 64) ∧
    (∀ b ∈ [1, 2, 3], b < 256) ∧
    5 + (build_packet 13 7 5 [1, 2, 3] 2 (fun _ => 0)).1.length ≤ 2 ^ 32 ∧
    ((build_packet 13 7 5 [1, 2, 3] 2 (fun _ => 0)).1.map
      (fun p => ((parse_packet p).map ParsedPkt.payload).getD [])).flatten =
      [1, 2, 3] :=
  ⟨by decide, by decide, by decide, fun _ => (by decide : (0 : Nat) < 2 ^ 64),
   by decide, by decide,
   (C4_codec_roundtrip 13 7 5 2 [1, 2, 3] (fun _ => 0) (by decide) (by decide)
     (by decide) (fun _ => (by decide : (0 : Nat) < 2 ^ 64)) (by decide)
     (by decide)).2.1⟩

/-- On a fresh group, a single fragment whose byte count equals its own
`payload_len` header field immediately completes reassembly and is
delivered alone: `expected_bytes` is initialized from that same field. -/
theorem add_fragment_first_complete (addr mid seq plen : Nat)
    (payload : List Nat) (h : payload.length = plen) :
    add_fragment [] addr mid seq plen payload = ([], some ([seq], payload)) := by
  unfold add_fragment
  simp [dlookup, dset, ddel, sortNat, sortedInsert, contiguous, h]

set_option maxRecDepth 100000 in
/-- C1 (code bug evidence).  A 1169-byte body is split into two fragments,
yet feeding the reassembler the FIRST fragment alone — fresh group, the
second fragment never received — already completes the group and delivers
the 1168 bytes of that single fragment, which differ from the original
body.  The `Fragment` is created with `expected_bytes` equal to the first
arriving fragment's own `payload_len`, so `received_bytes >= expected_bytes`
holds immediately and the single-key group is trivially contiguous. -/
theorem C1_first_fragment_completes_reassembly :
    (build_packet 13 5 100 (List.replicate 1169 7) 0 (fun _ => 0)).1.length = 2 ∧
    parse_packet
      ((build_packet 13 5 100 (List.replicate 1169 7) 0 (fun _ => 0)).1.getD 0 []) =
      some ⟨13, 5, 100, 0, 1168, List.replicate 1168 7, 0⟩ ∧
    (add_fragment [] 9 5 100 1168 (List.replicate 1168 7)).2 =
      some ([100], List.replicate 1168 7) ∧
    (List.replicate 1168 7 : List Nat) ≠ List.replicate 1169 7 := by
  have hne : (List.replicate 1169 7 : List Nat) ≠ [] := by simp
  have hbuild := build_packet_nonempty 13 5 100 0 (fun _ => 0)
    (List.replicate 1169 7) hne
  have htotal : ((List.replicate 1169 7 : List Nat).length +
      SNAPSHOT_PAYLOAD_LIMIT - 1) / SNAPSHOT_PAYLOAD_LIMIT = 2 := by
    rw [List.length_replicate]
    decide
  refine ⟨?_, ?_, ?_, ?_⟩
  · rw [hbuild]
    simp only [List.length_map, List.length_range, htotal]
  · have hfd : ((List.replicate 1169 7 : List Nat).drop
        (0 * SNAPSHOT_PAYLOAD_LIMIT)).take SNAPSHOT_PAYLOAD_LIMIT =
        List.replicate 1168 7 := by
      rw [Nat.zero_mul, List.drop_zero, List.take_replicate,
        Nat.min_eq_left (by decide)]
      congr 1
    have hgd : (build_packet 13 5 100 (List.replicate 1169 7) 0
        (fun _ => 0)).1.getD 0 [] =
        make_header 13 5 (100 + 0) (List.replicate 1168 7 : List Nat).length 0
          (crc32 (make_header 13 5 (100 + 0)
            (List.replicate 1168 7 : List Nat).length 0 0 0 ++
            List.replicate 1168 7)) 0 ++ List.replicate 1168 7 := by
      rw [hbuild]
      have hmr := getD_map_range (fun i =>
        make_header 13 5 (100 + i)
          (((List.replicate 1169 7 : List Nat).drop
            (i * SNAPSHOT_PAYLOAD_LIMIT)).take SNAPSHOT_PAYLOAD_LIMIT).length
          ((fun _ => (0 : Nat)) i)
          (crc32 (make_header 13 5 (100 + i)
            (((List.replicate 1169 7 : List Nat).drop
              (i * SNAPSHOT_PAYLOAD_LIMIT)).take SNAPSHOT_PAYLOAD_LIMIT).length
            ((fun _ => (0 : Nat)) i) 0 0 ++
            ((List.replicate 1169 7 : List Nat).drop
              (i * SNAPSHOT_PAYLOAD_LIMIT)).take SNAPSHOT_PAYLOAD_LIMIT)) 0 ++
          ((List.replicate 1169 7 : List Nat).drop
            (i * SNAPSHOT_PAYLOAD_LIMIT)).take SNAPSHOT_PAYLOAD_LIMIT)
        (((List.replicate 1169 7 : List Nat).length +
          SNAPSHOT_PAYLOAD_LIMIT - 1) / SNAPSHOT_PAYLOAD_LIMIT) 0
        (by rw [htotal]; omega) []
      rw [hmr, hfd]
    rw [hgd]
    have hp := parse_packet_build 13 5 (100 + 0) 0 0 (List.replicate 1168 7)
      (by decide) (by decide) (by decide) (by decide) (by decide)
      (by rw [List.length_replicate]; decide)
      (by intro b hb; rw [List.eq_of_mem_replicate hb]; decide)
    rw [List.length_replicate] at hp ⊢
    simpa using hp
  · rw [add_fragment_first_complete 9 5 100 1168 (List.replicate 1168 7)
      (List.length_replicate 1168 7)]
  · intro h
    have hlen := congrArg List.length h
    simp only [List.length_replicate] at hlen
    omega

/-! ## Server-model frame lemmas

What each send loop and each handler leaves untouched: the building blocks
of the claims about server state. -/

/-- Every `send` leaves the registry, room table, id counters and packet-id
untouched; with `ack=False` the unacked table is untouched as well. -/
theorem srv_send_shape (st : SState) (ts : Nat → Nat) (mt a : Nat)
    (p : List Nat) (ack : Bool) (rep : Nat) :
    (srv_send st ts mt a p ack rep).1.next_player_id = st.next_player_id ∧
    (srv_send st ts mt a p ack rep).1.players = st.players ∧
    (srv_send st ts mt a p ack rep).1.addr_to_player = st.addr_to_player ∧
    (srv_send st ts mt a p ack rep).1.next_room_id = st.next_room_id ∧
    (srv_send st ts mt a p ack rep).1.rooms = st.rooms ∧
    (srv_send st ts mt a p ack rep).1.pkt_id = st.pkt_id ∧
    (ack = false → (srv_send st ts mt a p ack rep).1.unacked_packets = st.unacked_packets) := by
  unfold srv_send
  cases ack
  · dsimp only
    simp only [Bool.false_eq_true, if_false]
    split
    · simp
    · cases hd : dlookup st.addr_to_player a with
      | none => simp
      | some pid =>
        cases hs : dlookup st.seq pid with
        | none => simp [hs]
        | some s0 =>
          simp only [hs]
          split
          · simp
          · simp
  · dsimp only
    simp only [if_true]
    split
    · simp
    · cases hd : dlookup st.addr_to_player a with
      | none => simp
      | some pid =>
        cases hs : dlookup st.seq pid with
        | none => simp [hs]
        | some s0 =>
          simp only [hs]
          split
          · simp
          · simp

/-- Looking up the key just written. -/
theorem dlookup_dset_self {α β : Type} [DecidableEq α] (l : List (α × β))
    (k : α) (v : β) : dlookup (dset l k v) k = some v := by
  induction l with
  | nil => simp [dset, dlookup]
  | cons hd t ih =>
    rcases hd with ⟨a, b⟩
    by_cases hk : k = a
    · subst hk
      simp [dset, dlookup]
    · simp [dset, hk, dlookup, ih]

/-- Writing one key leaves every other lookup unchanged. -/
theorem dlookup_dset_ne {α β : Type} [DecidableEq α] (l : List (α × β))
    (k k' : α) (v : β) (h : k' ≠ k) :
    dlookup (dset l k v) k' = dlookup l k' := by
  induction l with
  | nil => simp [dset, dlookup, h]
  | cons hd t ih =>
    rcases hd with ⟨a, b⟩
    by_cases hk : k = a
    · subst hk
      simp [dset, dlookup, h]
    · simp [dset, hk, dlookup, ih]

/-- The state components `send` never writes. -/
def sendFrame (s t : SState) : Prop :=
  t.next_player_id = s.next_player_id ∧ t.players = s.players ∧
  t.addr_to_player = s.addr_to_player ∧ t.next_room_id = s.next_room_id ∧
  t.rooms = s.rooms ∧ t.pkt_id = s.pkt_id

theorem sendFrame_refl (s : SState) : sendFrame s s :=
  ⟨rfl, rfl, rfl, rfl, rfl, rfl⟩

theorem sendFrame_trans {s t u : SState} (h1 : sendFrame s t)
    (h2 : sendFrame t u) : sendFrame s u := by
  obtain ⟨a1, b1, c1, d1, e1, f1⟩ := h1
  obtain ⟨a2, b2, c2, d2, e2, f2⟩ := h2
  exact ⟨a2.trans a1, b2.trans b1, c2.trans c1, d2.trans d1, e2.trans e1,
    f2.trans f1⟩

theorem srv_send_frame (st : SState) (ts : Nat → Nat) (mt a : Nat)
    (p : List Nat) (ack : Bool) (rep : Nat) :
    sendFrame st (srv_send st ts mt a p ack rep).1 := by
  have h := srv_send_shape st ts mt a p ack rep
  exact ⟨h.1, h.2.1, h.2.2.1, h.2.2.2.1, h.2.2.2.2.1, h.2.2.2.2.2.1⟩

theorem srv_send_unacked (st : SState) (ts : Nat → Nat) (mt a : Nat)
    (p : List Nat) (rep : Nat) :
    (srv_send st ts mt a p false rep).1.unacked_packets = st.unacked_packets :=
  (srv_send_shape st ts mt a p false rep).2.2.2.2.2.2 rfl

/-- `sendFrame` plus the unacked table, for the `ack=False` send loops. -/
def sendFrameU (s t : SState) : Prop :=
  sendFrame s t ∧ t.unacked_packets = s.unacked_packets

theorem sendFrameU_refl (s : SState) : sendFrameU s s :=
  ⟨sendFrame_refl s, rfl⟩

theorem sendFrameU_trans {s t u : SState} (h1 : sendFrameU s t)
    (h2 : sendFrameU t u) : sendFrameU s u :=
  ⟨sendFrame_trans h1.1 h2.1, h2.2.trans h1.2⟩

theorem srv_send_frameU (st : SState) (ts : Nat → Nat) (mt a : Nat)
    (p : List Nat) (rep : Nat) :
    sendFrameU st (srv_send st ts mt a p false rep).1 :=
  ⟨srv_send_frame st ts mt a p false rep, srv_send_unacked st ts mt a p rep⟩

theorem init_ack_loop_frame (ts : Nat → Nat) (a npid : Nat) (keys : List Nat) :
    ∀ st : SState, sendFrameU st (init_ack_loop ts a npid keys st).1 := by
  induction keys with
  | nil => intro st; exact sendFrameU_refl st
  | cons k rest ih =>
    intro st
    have hsrv := srv_send_frameU st ts MT_INIT_ACK a
      (build_init_ack_payload k npid) 1
    unfold init_ack_loop
    dsimp only
    rcases hr : srv_send st ts MT_INIT_ACK a (build_init_ack_payload k npid)
        false 1 with ⟨st', e | b⟩
    · rw [hr] at hsrv; simpa using hsrv
    · rw [hr] at hsrv
      cases b
      · simpa using hsrv
      · simpa using sendFrameU_trans (by simpa using hsrv) (ih st')

theorem create_ack_loop_frame (ts : Nat → Nat) (a rid : Nat) (keys : List Nat) :
    ∀ st : SState, sendFrameU st (create_ack_loop ts a rid keys st).1 := by
  induction keys with
  | nil => intro st; exact sendFrameU_refl st
  | cons k rest ih =>
    intro st
    have hsrv := srv_send_frameU st ts MT_CREATE_ACK a
      (build_create_ack_payload k rid) 1
    unfold create_ack_loop
    dsimp only
    rcases hr : srv_send st ts MT_CREATE_ACK a (build_create_ack_payload k rid)
        false 1 with ⟨st', e | b⟩
    · rw [hr] at hsrv; simpa using hsrv
    · rw [hr] at hsrv
      cases b
      · simpa using hsrv
      · simpa using sendFrameU_trans (by simpa using hsrv) (ih st')

theorem list_rooms_ack_loop_frame (ts : Nat → Nat) (a : Nat)
    (info : List (Nat × (Nat × List Nat))) (keys : List Nat) :
    ∀ st : SState, sendFrameU st (list_rooms_ack_loop ts a info keys st).1 := by
  induction keys with
  | nil => intro st; exact sendFrameU_refl st
  | cons k rest ih =>
    intro st
    have hsrv := srv_send_frameU st ts MT_LIST_ROOMS_ACK a
      (build_list_rooms_ack_payload k info) 1
    unfold list_rooms_ack_loop
    dsimp only
    rcases hr : srv_send st ts MT_LIST_ROOMS_ACK a
        (build_list_rooms_ack_payload k info) false 1 with ⟨st', e | b⟩
    · rw [hr] at hsrv; simpa using hsrv
    · rw [hr] at hsrv
      cases b
      · simpa using hsrv
      · simpa using sendFrameU_trans (by simpa using hsrv) (ih st')

theorem join_ack_seq_loop_frame (ts : Nat → Nat) (a rid ld : Nat)
    (info : List (Nat × (Nat × (Nat × Nat × Nat)))) (keys : List Nat) :
    ∀ (st : SState) (sent : Bool),
      sendFrameU st (join_ack_seq_loop ts a rid ld info keys st sent).1 := by
  induction keys with
  | nil => intro st sent; exact sendFrameU_refl st
  | cons k rest ih =>
    intro st sent
    have hsrv := srv_send_frameU st ts MT_JOIN_ACK a
      (build_join_ack_payload k rid ld info) REDUNDANT_K_PACKETS
    unfold join_ack_seq_loop
    dsimp only
    rcases hr : srv_send st ts MT_JOIN_ACK a (build_join_ack_payload k rid ld info)
        false REDUNDANT_K_PACKETS with ⟨st', e | b⟩
    · rw [hr] at hsrv; simpa using hsrv
    · rw [hr] at hsrv
      cases b
      · simpa using hsrv
      · simpa using sendFrameU_trans (by simpa using hsrv) (ih st' true)

theorem leave_ack_seq_loop_frame (ts : Nat → Nat) (a : Nat)
    (info : List (Nat × (Nat × (Nat × Nat × Nat)))) (keys : List Nat) :
    ∀ (st : SState) (sent : Bool),
      sendFrameU st (leave_ack_seq_loop ts a info keys st sent).1 := by
  induction keys with
  | nil => intro st sent; exact sendFrameU_refl st
  | cons k rest ih =>
    intro st sent
    have hsrv := srv_send_frameU st ts MT_LEAVE_ACK a
      (build_leave_ack_payload k info) REDUNDANT_K_PACKETS
    unfold leave_ack_seq_loop
    dsimp only
    rcases hr : srv_send st ts MT_LEAVE_ACK a (build_leave_ack_payload k info)
        false REDUNDANT_K_PACKETS with ⟨st', e | b⟩
    · rw [hr] at hsrv; simpa using hsrv
    · rw [hr] at hsrv
      cases b
      · simpa using hsrv
      · simpa using sendFrameU_trans (by simpa using hsrv) (ih st' true)

theorem join_fanout_frame (ts : Nat → Nat) (pkt : Pkt) (rid lid : Nat)
    (info : List (Nat × (Nat × (Nat × Nat × Nat))))
    (members : List (Nat × RoomPlayer)) :
    ∀ (st : SState) (sent : Bool),
      sendFrameU st (join_fanout ts pkt rid lid info members st sent).1 := by
  induction members with
  | nil => intro st sent; exact sendFrameU_refl st
  | cons m rest ih =>
    intro st sent
    rcases m with ⟨ld, player⟩
    unfold join_fanout
    cases hp : dlookup st.players player.global_id with
    | none => simpa using ih st sent
    | some pinfo =>
      simp only [hp]
      cases hk : pkt.seq_keys with
      | nil => exact sendFrameU_refl st
      | cons k0 krest =>
        have hloop := join_ack_seq_loop_frame ts pinfo.address rid ld info
          (if ld = lid then pkt.seq_keys else [k0]) st sent
        rcases hl : join_ack_seq_loop ts pinfo.address rid ld info
            (if ld = lid then pkt.seq_keys else [k0]) st sent with ⟨st', sent', e⟩
        rw [hl] at hloop
        rw [hk] at hl
        simp only [hk, hl]
        rcases e with e | u
        · simpa using hloop
        · cases u
          exact sendFrameU_trans (by simpa using hloop) (ih st' sent')

theorem leave_fanout_frame (ts : Nat → Nat) (pkt : Pkt) (lid : Nat)
    (info : List (Nat × (Nat × (Nat × Nat × Nat))))
    (members : List (Nat × RoomPlayer)) :
    ∀ (st : SState) (sent : Bool),
      sendFrameU st (leave_fanout ts pkt lid info members st sent).1 := by
  induction members with
  | nil => intro st sent; exact sendFrameU_refl st
  | cons m rest ih =>
    intro st sent
    rcases m with ⟨ld, player⟩
    unfold leave_fanout
    cases hp : dlookup st.players player.global_id with
    | none => simpa using ih st sent
    | some pinfo =>
      simp only [hp]
      cases hk : pkt.seq_keys with
      | nil => exact sendFrameU_refl st
      | cons k0 krest =>
        have hloop := leave_ack_seq_loop_frame ts pinfo.address info
          (if ld = lid then pkt.seq_keys else [k0]) st sent
        rcases hl : leave_ack_seq_loop ts pinfo.address info
            (if ld = lid then pkt.seq_keys else [k0]) st sent with ⟨st', sent', e⟩
        rw [hl] at hloop
        rw [hk] at hl
        simp only [hk, hl]
        rcases e with e | u
        · simpa using hloop
        · cases u
          exact sendFrameU_trans (by simpa using hloop) (ih st' sent')

theorem event_fanout_frame (ts : Nat → Nat) (payload : List Nat)
    (members : List (Nat × RoomPlayer)) :
    ∀ (st : SState) (sent : Bool),
      sendFrameU st (event_fanout ts payload members st sent).1 := by
  induction members with
  | nil => intro st sent; exact sendFrameU_refl st
  | cons m rest ih =>
    intro st sent
    rcases m with ⟨ld, player⟩
    unfold event_fanout
    cases hp : dlookup st.players player.global_id with
    | none => simpa using ih st sent
    | some pinfo =>
      simp only [hp]
      have hsrv := srv_send_frameU st ts MT_EVENT pinfo.address payload
        REDUNDANT_K_PACKETS
      rcases hr : srv_send st ts MT_EVENT pinfo.address payload false
          REDUNDANT_K_PACKETS with ⟨st', e | b⟩
      · rw [hr] at hsrv; simpa using hsrv
      · rw [hr] at hsrv
        cases b
        · simpa using sendFrameU_trans (by simpa using hsrv) (ih st' sent)
        · simpa using sendFrameU_trans (by simpa using hsrv) (ih st' true)

theorem broadcast_players_frame (ts : Nat → Nat) (payload : List Nat)
    (members : List (Nat × RoomPlayer)) :
    ∀ (st : SState) (sent : Bool),
      sendFrame st (broadcast_players ts payload members st sent).1 := by
  induction members with
  | nil => intro st sent; exact sendFrame_refl st
  | cons m rest ih =>
    intro st sent
    rcases m with ⟨ld, player⟩
    unfold broadcast_players
    cases hq : dlookup st.seq player.global_id with
    | none => simpa using ih st sent
    | some s0 =>
      simp only [hq]
      cases hp : dlookup st.players player.global_id with
      | none => exact sendFrame_refl st
      | some pinfo =>
        simp only [hp]
        have hsrv := srv_send_frame st ts MT_UPDATES pinfo.address payload true 1
        rcases hr : srv_send st ts MT_UPDATES pinfo.address payload true 1
            with ⟨st', e | b⟩
        · rw [hr] at hsrv; simpa using hsrv
        · rw [hr] at hsrv
          cases b
          · simpa using sendFrame_trans (by simpa using hsrv) (ih st' sent)
          · simpa using sendFrame_trans (by simpa using hsrv) (ih st' true)

theorem broadcast_rooms_frame (ts : Nat → Nat) (roomsl : List (Nat × Room)) :
    ∀ (st : SState) (sent : Bool),
      sendFrame st (broadcast_rooms ts roomsl st sent).1 := by
  induction roomsl with
  | nil => intro st sent; exact sendFrame_refl st
  | cons m rest ih =>
    intro st sent
    rcases m with ⟨rid, room⟩
    unfold broadcast_rooms
    dsimp only
    split
    · exact ih st sent
    · have hbp := broadcast_players_frame ts
        (build_updates_payload (takeLast REDUNDANT_K_UPDATES room.updates))
        room.players st sent
      rcases hb : broadcast_players ts
          (build_updates_payload (takeLast REDUNDANT_K_UPDATES room.updates))
          room.players st sent with ⟨st', sent', e⟩
      rw [hb] at hbp
      rcases e with e | u
      · simpa using hbp
      · cases u
        exact sendFrame_trans (by simpa using hbp) (ih st' sent')

theorem retransmit_loop_frame (due : Nat × Nat → Bool)
    (entries : List ((Nat × Nat) × UnackedEntry)) :
    ∀ st : SState, sendFrame st (retransmit_loop due entries st).1 := by
  induction entries with
  | nil => intro st; exact sendFrame_refl st
  | cons m rest ih =>
    intro st
    rcases m with ⟨key, entry⟩
    unfold retransmit_loop
    dsimp only
    split
    · exact sendFrame_trans (by exact ⟨rfl, rfl, rfl, rfl, rfl, rfl⟩)
        (ih { st with unacked_packets := ddel st.unacked_packets key })
    · split
      · cases hp : dlookup st.players key.2 with
        | none => exact sendFrame_refl st
        | some pinfo =>
          simp only [hp]
          exact sendFrame_trans (by exact ⟨rfl, rfl, rfl, rfl, rfl, rfl⟩)
            (ih _)
      · exact ih st

theorem handle_init_shape (st : SState) (ts : Nat → Nat) (pkt : Pkt)
    (addr : Nat) :
    (handle_init st ts pkt addr).1.players =
      dset st.players st.next_player_id ⟨addr, 0, 0⟩ ∧
    (handle_init st ts pkt addr).1.addr_to_player =
      dset st.addr_to_player addr st.next_player_id ∧
    (handle_init st ts pkt addr).1.rooms = st.rooms ∧
    (handle_init st ts pkt addr).1.next_room_id = st.next_room_id ∧
    (handle_init st ts pkt addr).1.unacked_packets = st.unacked_packets ∧
    (pkt.seq_keys = [] →
      dlookup (handle_init st ts pkt addr).1.seq st.next_player_id = some 1) := by
  unfold handle_init
  dsimp only
  have hl := init_ack_loop_frame ts addr st.next_player_id pkt.seq_keys
    { st with
        players := dset st.players st.next_player_id ⟨addr, 0, 0⟩,
        addr_to_player := dset st.addr_to_player addr st.next_player_id,
        seq := dset st.seq st.next_player_id 1 }
  rcases hr : init_ack_loop ts addr st.next_player_id pkt.seq_keys
      { st with
          players := dset st.players st.next_player_id ⟨addr, 0, 0⟩,
          addr_to_player := dset st.addr_to_player addr st.next_player_id,
          seq := dset st.seq st.next_player_id 1 } with ⟨st2, e | b⟩
  · rw [hr] at hl
    obtain ⟨⟨h1, h2, h3, h4, h5, h6⟩, h7⟩ := hl
    refine ⟨by simpa using h2, by simpa using h3, by simpa using h5,
      by simpa using h4, by simpa using h7, ?_⟩
    intro hk
    rw [hk] at hr
    simp only [init_ack_loop] at hr
    simp at hr
  · rw [hr] at hl
    obtain ⟨⟨h1, h2, h3, h4, h5, h6⟩, h7⟩ := hl
    cases b
    · refine ⟨by simpa using h2, by simpa using h3, by simpa using h5,
        by simpa using h4, by simpa using h7, ?_⟩
      intro hk
      rw [hk] at hr
      simp only [init_ack_loop] at hr
      simp at hr
    · refine ⟨by simpa using h2, by simpa using h3, by simpa using h5,
        by simpa using h4, by simpa using h7, ?_⟩
      intro hk
      rw [hk] at hr
      simp only [init_ack_loop] at hr
      rw [Prod.mk.injEq] at hr
      obtain ⟨hst, -⟩ := hr
      subst hst
      simpa using dlookup_dset_self st.seq st.next_player_id 1

/-- The room object `handle_create_room` stores. -/
def freshRoom (rid : Nat) (name : List Nat) : Room :=
  ⟨rid, name, 0, [], List.replicate TOTAL_CELLS 0, []⟩

theorem handle_create_room_shape (st : SState) (ts : Nat → Nat) (pkt : Pkt)
    (addr : Nat) :
    (handle_create_room st ts pkt addr).1.players = st.players ∧
    (handle_create_room st ts pkt addr).1.addr_to_player = st.addr_to_player ∧
    (handle_create_room st ts pkt addr).1.next_player_id = st.next_player_id ∧
    (handle_create_room st ts pkt addr).1.unacked_packets = st.unacked_packets ∧
    (validUtf8 pkt.payload = true →
      (handle_create_room st ts pkt addr).1.rooms =
        dset st.rooms st.next_room_id (freshRoom st.next_room_id pkt.payload)) ∧
    (validUtf8 pkt.payload = false →
      (handle_create_room st ts pkt addr).1.rooms = st.rooms) := by
  unfold handle_create_room parse_create_room_payload
  cases hv : validUtf8 pkt.payload with
  | false =>
    simp [hv]
  | true =>
    simp only [hv, if_true]
    have hl := create_ack_loop_frame ts addr st.next_room_id pkt.seq_keys
      { st with rooms := dset st.rooms st.next_room_id ⟨st.next_room_id, pkt.payload, 0, [], List.replicate TOTAL_CELLS 0, []⟩ }
    rcases hr : create_ack_loop ts addr st.next_room_id pkt.seq_keys
        { st with rooms := dset st.rooms st.next_room_id ⟨st.next_room_id, pkt.payload, 0, [], List.replicate TOTAL_CELLS 0, []⟩ }
        with ⟨st2, e | b⟩
    · rw [hr] at hl
      obtain ⟨⟨h1, h2, h3, h4, h5, h6⟩, h7⟩ := hl
      exact ⟨by simpa using h2, by simpa using h3, by simpa using h1,
        by simpa using h7, fun _ => by simpa [freshRoom] using h5, by simp⟩
    · rw [hr] at hl
      obtain ⟨⟨h1, h2, h3, h4, h5, h6⟩, h7⟩ := hl
      cases b
      · exact ⟨by simpa using h2, by simpa using h3, by simpa using h1,
          by simpa using h7, fun _ => by simpa [freshRoom] using h5, by simp⟩
      · exact ⟨by simpa using h2, by simpa using h3, by simpa using h1,
          by simpa using h7, fun _ => by simpa [freshRoom] using h5, by simp⟩

theorem handle_join_room_rooms (st : SState) (ts : Nat → Nat)
    (color : Nat × Nat × Nat) (pkt : Pkt) (addr : Nat) :
    (handle_join_room st ts color pkt addr).1.rooms = st.rooms ∨
    ∃ ridJ room0 lid pid,
      parse_join_room_payload pkt.payload = some ridJ ∧
      dlookup st.rooms ridJ = some room0 ∧
      (handle_join_room st ts color pkt addr).1.rooms =
        dset st.rooms ridJ
          { room0 with players := dset room0.players lid ⟨pid, color⟩ } := by
  unfold handle_join_room
  cases hp : parse_join_room_payload pkt.payload with
  | none => left; rfl
  | some ridJ =>
    simp only [hp]
    cases hrm : dlookup st.rooms ridJ with
    | none => left; rfl
    | some room =>
      simp only [hrm]
      cases ha : dlookup st.addr_to_player addr with
      | none => left; rfl
      | some pid =>
        simp only [ha]
        cases hs : dlookup st.seq pid with
        | none => left; rfl
        | some s0 =>
          simp only [hs]
          cases hl : pick_local_id room with
          | none => left; rfl
          | some lid =>
            simp only [hl]
            cases hpi : dlookup st.players pid with
            | none =>
              simp only [hpi]
              right
              exact ⟨ridJ, room, lid, pid, rfl, hrm, rfl⟩
            | some pinfo =>
              simp only [hpi]
              right
              refine ⟨ridJ, room, lid, pid, rfl, hrm, ?_⟩
              split
              all_goals
                rename_i heq
              all_goals
                have hff := join_fanout_frame ts pkt ridJ lid
                  (List.map (fun e => (e.1, e.2.global_id, e.2.color)) (dset room.players lid ⟨pid, color⟩))
                  (dset room.players lid ⟨pid, color⟩)
                  { st with
                      players := dset st.players pid { pinfo with room_id := ridJ, player_local_id := lid },
                      rooms := dset st.rooms ridJ { room with players := dset room.players lid ⟨pid, color⟩ } }
                  false
              all_goals
                rw [heq] at hff
              all_goals
                simpa using hff.1.2.2.2.2.1

theorem handle_leave_room_rooms (st : SState) (ts : Nat → Nat) (pkt : Pkt)
    (addr : Nat) :
    (handle_leave_room st ts pkt addr).1.rooms = st.rooms ∨
    ∃ rid0 room0 lid,
      dlookup st.rooms rid0 = some room0 ∧
      (handle_leave_room st ts pkt addr).1.rooms =
        dset st.rooms rid0 { room0 with players := ddel room0.players lid } := by
  unfold handle_leave_room
  cases ha : dlookup st.addr_to_player addr with
  | none => left; rfl
  | some pid =>
    simp only [ha]
    cases hs : dlookup st.seq pid with
    | none => left; rfl
    | some s0 =>
      simp only [hs]
      cases hpi : dlookup st.players pid with
      | none => simp only [hpi]; left; trivial
      | some pinfo =>
        simp only [hpi]
        cases hrm : dlookup st.rooms pinfo.room_id with
        | none => left; rfl
        | some room =>
          simp only [hrm]
          right
          refine ⟨pinfo.room_id, room, pinfo.player_local_id, hrm, ?_⟩
          split
          all_goals
            rename_i heq
          all_goals
            have hff := leave_fanout_frame ts pkt pinfo.player_local_id
              (List.map (fun e => (e.1, e.2.global_id, e.2.color)) (ddel room.players pinfo.player_local_id))
              (ddel room.players pinfo.player_local_id)
              { st with
                  players := dset st.players pid { pinfo with room_id := 0, player_local_id := 0 },
                  rooms := dset st.rooms pinfo.room_id { room with players := ddel room.players pinfo.player_local_id } }
              false
          all_goals
            rw [heq] at hff
          all_goals
            simpa using hff.1.2.2.2.2.1

theorem handle_event_rooms (st : SState) (ts : Nat → Nat) (pkt : Pkt)
    (addr : Nat) :
    (handle_event st ts pkt addr).1.rooms = st.rooms ∨
    ∃ et rid0 lid cell room0,
      parse_event_payload pkt.payload = some (et, rid0, lid, cell) ∧
      dlookup st.rooms rid0 = some room0 ∧
      (handle_event st ts pkt addr).1.rooms =
        dset st.rooms rid0 (update_cell et room0 lid cell) := by
  unfold handle_event
  cases ha : dlookup st.addr_to_player addr with
  | none => left; rfl
  | some pid =>
    simp only [ha]
    cases hpe : parse_event_payload pkt.payload with
    | none => left; rfl
    | some q =>
      obtain ⟨et, rid0, lid, cell⟩ := q
      simp only [hpe]
      cases hrm : dlookup st.rooms rid0 with
      | none => left; rfl
      | some room =>
        simp only [hrm]
        by_cases hin : (dlookup room.players lid).isNone
        · simp only [hin, if_true]
          left; trivial
        · simp only [hin, if_false, Bool.false_eq_true]
          by_cases hfull : room.players.length < REQUIRED_ROOM_PLAYERS
          · simp only [hfull, if_true]
            cases hpi : dlookup st.players pid with
            | none => left; rfl
            | some pinfo =>
              simp only [hpi]
              left
              split
              all_goals
                rename_i heq
              all_goals
                have hff := srv_send_frame st ts MT_EVENT pinfo.address
                  (build_event_payload et rid0 0 cell) false REDUNDANT_K_PACKETS
              all_goals
                rw [heq] at hff
              all_goals
                simpa using hff.2.2.2.2.1
          · simp only [hfull, if_false]
            right
            refine ⟨et, rid0, lid, cell, room, rfl, hrm, ?_⟩
            split
            all_goals
              rename_i heq
            all_goals
              have hff := event_fanout_frame ts pkt.payload
                (update_cell et room lid cell).players
                { st with rooms := dset st.rooms rid0 (update_cell et room lid cell) }
                false
            all_goals
              rw [heq] at hff
            all_goals
              simpa using hff.1.2.2.2.2.1

theorem handle_updates_ack_state (st : SState) (pkt : Pkt) (addr : Nat) :
    (handle_updates_ack st pkt addr).1 = st := by
  unfold handle_updates_ack
  repeat' split
  all_goals rfl

theorem handle_snapshot_ack_state (st : SState) (pkt : Pkt) (addr : Nat) :
    (handle_snapshot_ack st pkt addr).1 = st := by
  unfold handle_snapshot_ack
  dsimp only
  repeat' split
  all_goals rfl

theorem cleanup_player_rooms (st : SState) (pid : Nat) :
    (cleanup_player st pid).rooms = st.rooms ∨
    ∃ rid0 room0 lid,
      dlookup st.rooms rid0 = some room0 ∧
      (cleanup_player st pid).rooms =
        dset st.rooms rid0 { room0 with players := ddel room0.players lid } := by
  unfold cleanup_player
  cases hpi : dlookup st.players pid with
  | none => left; rfl
  | some player =>
    simp only [hpi]
    by_cases hr0 : player.room_id ≠ 0
    · rw [if_pos hr0]
      cases hrm : dlookup st.rooms player.room_id with
      | none => left; rfl
      | some room =>
        simp only [hrm]
        right
        exact ⟨player.room_id, room, player.player_local_id, hrm, rfl⟩
    · rw [if_neg hr0]
      left; rfl

theorem handle_disconnect_rooms (st : SState) (addr : Nat) :
    (handle_disconnect st addr).rooms = st.rooms ∨
    ∃ rid0 room0 lid,
      dlookup st.rooms rid0 = some room0 ∧
      (handle_disconnect st addr).rooms =
        dset st.rooms rid0 { room0 with players := ddel room0.players lid } := by
  unfold handle_disconnect
  cases ha : dlookup st.addr_to_player addr with
  | none => left; rfl
  | some pid =>
    simp only [ha]
    by_cases hz : pid ≠ 0
    · rw [if_pos hz]
      exact cleanup_player_rooms st pid
    · rw [if_neg hz]
      left; rfl

theorem send_updates_to_all_rooms (st : SState) (ts : Nat → Nat) :
    (send_updates_to_all st ts).1.rooms = st.rooms := by
  unfold send_updates_to_all
  split
  all_goals
    rename_i heq
  all_goals
    have hff := broadcast_rooms_frame ts st.rooms st false
  all_goals
    rw [heq] at hff
  all_goals
    simpa using hff.2.2.2.2.1

theorem retransmit_rooms (st : SState) (due : Nat × Nat → Bool) :
    (retransmit st due).1.rooms = st.rooms := by
  have h := retransmit_loop_frame due st.unacked_packets st
  exact h.2.2.2.2.1

theorem handle_list_rooms_rooms (st : SState) (ts : Nat → Nat) (pkt : Pkt)
    (addr : Nat) : (handle_list_rooms st ts pkt addr).1.rooms = st.rooms := by
  unfold handle_list_rooms
  cases ha : dlookup st.addr_to_player addr with
  | none => rfl
  | some pid =>
    simp only [ha]
    split
    all_goals
      rename_i heq
    all_goals
      have hff := list_rooms_ack_loop_frame ts addr
        (st.rooms.map (fun e => (e.1, (e.2.players.length, e.2.name))))
        pkt.seq_keys st
    all_goals
      rw [heq] at hff
    all_goals
      simpa using hff.1.2.2.2.2.1

theorem getD_set_ne (l : List Nat) (i j v : Nat) (h : j ≠ i) :
    (l.set i v).getD j 0 = l.getD j 0 := by
  simp [List.getD_eq_getElem?_getD, List.getElem?_set_ne (Ne.symm h)]

/-- `update_cell` never changes an already-owned cell. -/
theorem update_cell_getD_preserve (et : Nat) (room : Room) (lid cell c : Nat)
    (h : room.grid.getD c 0 ≠ 0) :
    (update_cell et room lid cell).grid.getD c 0 = room.grid.getD c 0 := by
  unfold update_cell
  split
  · rfl
  · split
    · rfl
    · rename_i hbound hguard
      by_cases hev : et = EV_CELL_ACQUISITION
      · simp only [hev, if_true]
        by_cases hc : c = cell
        · subst hc
          exfalso
          exact hguard ⟨hev, h⟩
        · exact getD_set_ne room.grid cell c lid hc
      · simp only [hev, if_false]

/-- C3 (amended).  Grid monotonicity holds for every server operation EXCEPT
`handle_create_room`, which overwrites the room stored under the current
`next_room_id` with a fresh all-zero grid: for every step `SStep k s s'` and
every room of `s` with a non-zero cell, either the step is a CREATE_ROOM
aimed at that room id, or the room survives with that cell value intact.
The spec's unconditional statement fails: a CREATE_ROOM that could not be
answered (unregistered sender) leaves a stored room behind without
advancing `next_room_id`, so a later CREATE_ROOM resets a live grid, as
`C3_grid_reset_counterexample` replays from the initial state. -/
theorem C3_grid_monotone_amended (k : StepKind) (s s' : SState)
    (hstep : SStep k s s') (rid : Nat) (room : Room)
    (hroom : dlookup s.rooms rid = some room) (c : Nat)
    (hc : room.grid.getD c 0 ≠ 0) :
    (k = .createRoom ∧ rid = s.next_room_id) ∨
    ∃ room', dlookup s'.rooms rid = some room' ∧
      room'.grid.getD c 0 = room.grid.getD c 0 := by
  cases hstep with
  | initMsg s1 ts pkt addr =>
    right
    refine ⟨room, ?_, rfl⟩
    rw [(handle_init_shape s ts pkt addr).2.2.1]
    exact hroom
  | createRoom s1 ts pkt addr =>
    have hsh := handle_create_room_shape s ts pkt addr
    by_cases hv : validUtf8 pkt.payload = true
    · by_cases hrid : rid = s.next_room_id
      · exact Or.inl ⟨rfl, hrid⟩
      · right
        refine ⟨room, ?_, rfl⟩
        rw [hsh.2.2.2.2.1 hv, dlookup_dset_ne _ _ _ _ hrid]
        exact hroom
    · right
      refine ⟨room, ?_, rfl⟩
      rw [hsh.2.2.2.2.2 (by simpa using hv)]
      exact hroom
  | joinRoom s1 ts color pkt addr =>
    rcases handle_join_room_rooms s ts color pkt addr with
      h | ⟨ridJ, room0, lid, pid, hp, hr0, h⟩
    · right
      refine ⟨room, ?_, rfl⟩
      rw [h]; exact hroom
    · by_cases hrid : rid = ridJ
      · subst hrid
        have heq0 : room0 = room := by
          rw [hroom] at hr0; exact (Option.some.inj hr0).symm
        right
        refine ⟨{ room0 with players := dset room0.players lid ⟨pid, color⟩ }, ?_, ?_⟩
        · rw [h]; exact dlookup_dset_self _ _ _
        · rw [heq0]
      · right
        refine ⟨room, ?_, rfl⟩
        rw [h, dlookup_dset_ne _ _ _ _ hrid]
        exact hroom
  | leaveRoom s1 ts pkt addr =>
    rcases handle_leave_room_rooms s ts pkt addr with
      h | ⟨rid0, room0, lid, hr0, h⟩
    · right
      refine ⟨room, ?_, rfl⟩
      rw [h]; exact hroom
    · by_cases hrid : rid = rid0
      · subst hrid
        have heq0 : room0 = room := by
          rw [hroom] at hr0; exact (Option.some.inj hr0).symm
        right
        refine ⟨{ room0 with players := ddel room0.players lid }, ?_, ?_⟩
        · rw [h]; exact dlookup_dset_self _ _ _
        · rw [heq0]
      · right
        refine ⟨room, ?_, rfl⟩
        rw [h, dlookup_dset_ne _ _ _ _ hrid]
        exact hroom
  | listRooms s1 ts pkt addr =>
    right
    refine ⟨room, ?_, rfl⟩
    rw [handle_list_rooms_rooms s ts pkt addr]
    exact hroom
  | eventMsg s1 ts pkt addr =>
    rcases handle_event_rooms s ts pkt addr with
      h | ⟨et, rid0, lid, cell, room0, hp, hr0, h⟩
    · right
      refine ⟨room, ?_, rfl⟩
      rw [h]; exact hroom
    · by_cases hrid : rid = rid0
      · subst hrid
        have heq0 : room0 = room := by
          rw [hroom] at hr0; exact (Option.some.inj hr0).symm
        subst heq0
        right
        refine ⟨update_cell et room0 lid cell, ?_, ?_⟩
        · rw [h]; exact dlookup_dset_self _ _ _
        · exact update_cell_getD_preserve et room0 lid cell c hc
      · right
        refine ⟨room, ?_, rfl⟩
        rw [h, dlookup_dset_ne _ _ _ _ hrid]
        exact hroom
  | updatesAck s1 pkt addr =>
    right
    refine ⟨room, ?_, rfl⟩
    rw [handle_updates_ack_state s pkt addr]
    exact hroom
  | snapshotAck s1 pkt addr =>
    right
    refine ⟨room, ?_, rfl⟩
    rw [handle_snapshot_ack_state s pkt addr]
    exact hroom
  | disconnect s1 addr =>
    rcases handle_disconnect_rooms s addr with
      h | ⟨rid0, room0, lid, hr0, h⟩
    · right
      refine ⟨room, ?_, rfl⟩
      rw [h]; exact hroom
    · by_cases hrid : rid = rid0
      · subst hrid
        have heq0 : room0 = room := by
          rw [hroom] at hr0; exact (Option.some.inj hr0).symm
        right
        refine ⟨{ room0 with players := ddel room0.players lid }, ?_, ?_⟩
        · rw [h]; exact dlookup_dset_self _ _ _
        · rw [heq0]
      · right
        refine ⟨room, ?_, rfl⟩
        rw [h, dlookup_dset_ne _ _ _ _ hrid]
        exact hroom
  | broadcast s1 ts =>
    right
    refine ⟨room, ?_, rfl⟩
    rw [send_updates_to_all_rooms s ts]
    exact hroom
  | retrans s1 due =>
    right
    refine ⟨room, ?_, rfl⟩
    rw [retransmit_rooms s due]
    exact hroom

def ts0 : Nat → Nat := fun _ => 0

def c3color : Nat × Nat × Nat := (0, 0, 0)

def c3pktInit : Pkt := ⟨MT_INIT, 1, 0, [], []⟩

def c3pktJoin : Pkt := ⟨MT_JOIN_ROOM, 1, 0, [1], []⟩

def c3s1 : SState := (handle_init initialSState ts0 c3pktInit 3).1
def c3s2 : SState := (handle_init c3s1 ts0 c3pktInit 4).1
def c3s3 : SState := (handle_init c3s2 ts0 c3pktInit 5).1
def c3s4 : SState := (handle_init c3s3 ts0 c3pktInit 6).1
def c3s5 : SState :=
  (handle_create_room c3s4 ts0 ⟨MT_CREATE_ROOM, 1, 0, [65], [1]⟩ 99).1
def c3s6 : SState := (handle_join_room c3s5 ts0 c3color c3pktJoin 3).1
def c3s7 : SState := (handle_join_room c3s6 ts0 c3color c3pktJoin 4).1
def c3s8 : SState := (handle_join_room c3s7 ts0 c3color c3pktJoin 5).1
def c3s9 : SState := (handle_join_room c3s8 ts0 c3color c3pktJoin 6).1
def c3pktEvent : Pkt :=
  ⟨MT_EVENT, 1, 0, build_event_payload EV_CELL_ACQUISITION 1 1 5, []⟩
def c3s10 : SState := (handle_event c3s9 ts0 c3pktEvent 3).1
def c3pktCreate2 : Pkt := ⟨MT_CREATE_ROOM, 1, 0, [66], [3]⟩
def c3s11 : SState := (handle_create_room c3s10 ts0 c3pktCreate2 3).1

set_option maxRecDepth 100000 in
/-- C3 (counterexample).  A full reachable run: four INITs register players
1-4; a CREATE_ROOM from the unregistered address 99 stores room 1 but
cannot be answered, so `next_room_id` stays 1; the four players join room 1
and a CELL_ACQUISITION event sets `grid[5] := 1`; then a CREATE_ROOM from
the registered address 3 stores a fresh room under the same id 1, resetting
`grid[5]` to 0.  Grid monotonicity fails on a reachable state. -/
theorem C3_grid_reset_counterexample :
    SStep .initMsg initialSState c3s1 ∧ SStep .initMsg c3s1 c3s2 ∧
    SStep .initMsg c3s2 c3s3 ∧ SStep .initMsg c3s3 c3s4 ∧
    SStep .createRoom c3s4 c3s5 ∧ SStep .joinRoom c3s5 c3s6 ∧
    SStep .joinRoom c3s6 c3s7 ∧ SStep .joinRoom c3s7 c3s8 ∧
    SStep .joinRoom c3s8 c3s9 ∧ SStep .eventMsg c3s9 c3s10 ∧
    SStep .createRoom c3s10 c3s11 ∧
    (dlookup c3s10.rooms 1).map (fun r => r.grid.getD 5 0) = some 1 ∧
    (dlookup c3s11.rooms 1).map (fun r => r.grid.getD 5 0) = some 0 :=
  ⟨SStep.initMsg initialSState ts0 c3pktInit 3,
   SStep.initMsg c3s1 ts0 c3pktInit 4,
   SStep.initMsg c3s2 ts0 c3pktInit 5,
   SStep.initMsg c3s3 ts0 c3pktInit 6,
   SStep.createRoom c3s4 ts0 ⟨MT_CREATE_ROOM, 1, 0, [65], [1]⟩ 99,
   SStep.joinRoom c3s5 ts0 c3color c3pktJoin 3,
   SStep.joinRoom c3s6 ts0 c3color c3pktJoin 4,
   SStep.joinRoom c3s7 ts0 c3color c3pktJoin 5,
   SStep.joinRoom c3s8 ts0 c3color c3pktJoin 6,
   SStep.eventMsg c3s9 ts0 c3pktEvent 3,
   SStep.createRoom c3s10 ts0 c3pktCreate2 3,
   by decide, by decide⟩

/-- C2.  A CELL_ACQUISITION event processed for a full room replaces the
room with `update_cell` of it, and `update_cell` behaves exactly as the
spec says: an out-of-range cell or an owned cell leaves the room untouched;
otherwise the cell is set to the local id, `snapshot_id` advances by one
and the update is appended to the bounded deque. -/
theorem C2_cell_acquisition (st : SState) (ts : Nat → Nat) (pkt : Pkt)
    (addr pid : Nat) (room : Room) (room_id lid cell : Nat)
    (ha : dlookup st.addr_to_player addr = some pid)
    (hpe : parse_event_payload pkt.payload =
      some (EV_CELL_ACQUISITION, room_id, lid, cell))
    (hrm : dlookup st.rooms room_id = some room)
    (hin : (dlookup room.players lid).isNone = false)
    (hfull : ¬ room.players.length < REQUIRED_ROOM_PLAYERS) :
    dlookup (handle_event st ts pkt addr).1.rooms room_id =
      some (update_cell EV_CELL_ACQUISITION room lid cell) ∧
    (¬ cell < TOTAL_CELLS ∨ room.grid.getD cell 0 ≠ 0 →
      update_cell EV_CELL_ACQUISITION room lid cell = room) ∧
    (cell < TOTAL_CELLS → room.grid.getD cell 0 = 0 →
      (update_cell EV_CELL_ACQUISITION room lid cell).grid =
        room.grid.set cell lid ∧
      (update_cell EV_CELL_ACQUISITION room lid cell).snapshot_id =
        room.snapshot_id + 1 ∧
      (update_cell EV_CELL_ACQUISITION room lid cell).updates =
        dq_append room.updates (EV_CELL_ACQUISITION, lid, cell)) := by
  refine ⟨?_, ?_, ?_⟩
  · unfold handle_event
    simp only [ha, hpe, hrm, hin, Bool.false_eq_true, if_false, hfull]
    split
    all_goals
      rename_i heq
    all_goals
      have hff := event_fanout_frame ts pkt.payload
        (update_cell EV_CELL_ACQUISITION room lid cell).players
        { st with rooms := dset st.rooms room_id (update_cell EV_CELL_ACQUISITION room lid cell) }
        false
    all_goals
      rw [heq] at hff
    all_goals
      rw [show (_ : SState × Except PyErr Unit).1.rooms = _ from hff.1.2.2.2.2.1]
    all_goals
      exact dlookup_dset_self st.rooms room_id _
  · intro h
    unfold update_cell
    rcases h with h | h
    · rw [if_pos h]
    · by_cases hcell : cell < TOTAL_CELLS
      · rw [if_neg (not_not_intro hcell), if_pos ⟨rfl, h⟩]
      · rw [if_pos hcell]
  · intro h1 h2
    unfold update_cell
    rw [if_neg (not_not_intro h1), if_neg (fun hcon => hcon.2 h2)]
    simp

def c2room : Room :=
  ⟨1, [65], 0,
   [(1, ⟨11, (0, 0, 0)⟩), (2, ⟨12, (0, 0, 0)⟩), (3, ⟨13, (0, 0, 0)⟩),
    (4, ⟨14, (0, 0, 0)⟩)],
   [0, 0, 0, 0, 0, 0, 0, 0], []⟩

def c2state : SState :=
  { initialSState with addr_to_player := [(7, 1)], rooms := [(1, c2room)] }

def c2pkt : Pkt := ⟨MT_EVENT, 1, 0, build_event_payload 0 1 2 5, []⟩

/-- C2 (witness).  The theorem applied to a concrete full room and the
event payload claiming cell 5 for local id 2. -/
theorem C2_cell_acquisition_witness :
    dlookup c2state.addr_to_player 7 = some 1 ∧
    parse_event_payload c2pkt.payload = some (EV_CELL_ACQUISITION, 1, 2, 5) ∧
    dlookup c2state.rooms 1 = some c2room ∧
    (dlookup c2room.players 2).isNone = false ∧
    ¬ c2room.players.length < REQUIRED_ROOM_PLAYERS ∧
    (dlookup (handle_event c2state ts0 c2pkt 7).1.rooms 1 =
      some (update_cell EV_CELL_ACQUISITION c2room 2 5) ∧
    (¬ (5 : Nat) < TOTAL_CELLS ∨ c2room.grid.getD 5 0 ≠ 0 →
      update_cell EV_CELL_ACQUISITION c2room 2 5 = c2room) ∧
    ((5 : Nat) < TOTAL_CELLS → c2room.grid.getD 5 0 = 0 →
      (update_cell EV_CELL_ACQUISITION c2room 2 5).grid = c2room.grid.set 5 2 ∧
      (update_cell EV_CELL_ACQUISITION c2room 2 5).snapshot_id =
        c2room.snapshot_id + 1 ∧
      (update_cell EV_CELL_ACQUISITION c2room 2 5).updates =
        dq_append c2room.updates (EV_CELL_ACQUISITION, 2, 5))) :=
  ⟨by decide, by decide, by decide, by decide, by decide,
   C2_cell_acquisition c2state ts0 c2pkt 7 1 c2room 1 2 5 (by decide) (by decide)
     (by decide) (by decide) (by decide)⟩

/-- The client `send` with `ack=False` advances `seq` by 2 (one per item of
the un-unpacked `build_packet` tuple) and `pkt_id` by 1, nothing else. -/
theorem client_send_noack (st : CState) (ts : Nat → Nat) (mt : Nat)
    (payload : List Nat) :
    client_send st ts mt payload false 1 =
      ({ st with seq := st.seq + 1 + 1, pkt_id := st.pkt_id + 1 }, true) := by
  rfl

/-- `send_updates_ack` for a positive sequence number sends exactly one
fire-and-forget UPDATES_ACK. -/
theorem send_updates_ack_pos (st : CState) (ts : Nat → Nat) (k : Nat)
    (hk : 1 ≤ k) :
    send_updates_ack st ts k =
      ({ st with seq := st.seq + 1 + 1, pkt_id := st.pkt_id + 1 }, true) := by
  unfold send_updates_ack
  rw [if_neg (by omega : ¬ k < 1)]
  dsimp only
  rw [client_send_noack]

/-- The `handle_updates` ACK loop, for a non-logging client and positive
fragment sequences: every key is ACKed in order and the state only
advances `seq` and `pkt_id`. -/
theorem updates_ack_loop_char (ts : Nat → Nat) (keys : List Nat) :
    ∀ (st : CState) (acks : List Nat), st.islogging = false →
      (∀ k ∈ keys, 1 ≤ k) →
      updates_ack_loop ts keys st acks =
        ({ st with
            seq := st.seq + 2 * keys.length,
            pkt_id := st.pkt_id + keys.length }, acks ++ keys, .ok ()) := by
  induction keys with
  | nil =>
    intro st acks h hk
    simp [updates_ack_loop]
  | cons k rest ih =>
    intro st acks h hk
    unfold updates_ack_loop
    rw [send_updates_ack_pos st ts k (hk k (by simp))]
    dsimp only
    rw [if_pos rfl]
    rw [if_neg (show ¬ ({ st with seq := st.seq + 1 + 1, pkt_id := st.pkt_id + 1 } : CState).islogging = true from by simp [h])]
    rw [ih { st with seq := st.seq + 1 + 1, pkt_id := st.pkt_id + 1 }
      (acks ++ [k]) (by simp [h]) (fun x hx => hk x (by simp [hx]))]
    simp only [List.length_cons, List.append_assoc, List.singleton_append]
    refine congrArg (fun q => (q, acks ++ k :: rest, Except.ok ())) ?_
    congr 1
    all_goals omega

/-- Client-side `update_cell` never touches the logging flag. -/
theorem client_update_cell_islogging (s : CState) (a b c : Nat) :
    (client_update_cell s a b c).islogging = s.islogging := by
  unfold client_update_cell
  dsimp only
  repeat' split
  all_goals rfl

/-- Folding `update_cell` over an update list never touches the logging
flag. -/
theorem foldl_update_islogging (l : List (Nat × Nat × Nat)) :
    ∀ s : CState,
      (l.foldl (fun s u => client_update_cell s u.1 u.2.1 u.2.2) s).islogging =
        s.islogging := by
  induction l with
  | nil => intro s; rfl
  | cons u rest ih =>
    intro s
    rw [List.foldl_cons, ih, client_update_cell_islogging]

/-- C5 (amended).  For an UPDATES packet whose payload parses to a
NON-EMPTY update list, a non-logging client behaves as the spec says:
with `required = server_snapshot_id - local_snapshot_id`, if
`0 < required <= len(updates)` the trailing `required` updates are applied
in order and the local snapshot id becomes the server's, otherwise nothing
is applied; in both cases every fragment sequence of the packet is ACKed.
The spec's further promise that an empty update list is still ACKed is
false: `if updates:` is falsy for an empty list, so the handler returns
before the ACK loop (`C5_empty_updates_not_acked`). -/
theorem C5_updates_reconciliation (st : CState) (ts : Nat → Nat) (pkt : Pkt)
    (updates : List (Nat × Nat × Nat))
    (hlog : st.islogging = false)
    (hp : parse_updates_payload pkt.payload = some updates)
    (hne : updates ≠ [])
    (hk : ∀ k ∈ pkt.seq_keys, 1 ≤ k) :
    handle_updates st ts pkt =
      (let required : Int := (pkt.snapshot_id : Int) - (st.snapshot_id : Int)
       let st1 : CState :=
         if 0 < required ∧ required ≤ (updates.length : Int) then
           let applied := (takeLast required.toNat updates).foldl
             (fun s u => client_update_cell s u.1 u.2.1 u.2.2) st
           { applied with snapshot_id := pkt.snapshot_id }
         else st
       ({ st1 with
           seq := st1.seq + 2 * pkt.seq_keys.length,
           pkt_id := st1.pkt_id + pkt.seq_keys.length },
         pkt.seq_keys, .ok ())) := by
  unfold handle_updates
  rw [hp]
  dsimp only
  rw [if_neg (show ¬ updates.isEmpty = true from by simp [hne])]
  rw [updates_ack_loop_char ts pkt.seq_keys]
  · simp
  · split
    · rename_i hreq
      simpa using (foldl_update_islogging _ st).trans hlog
    · exact hlog
  · exact hk

def c5state : CState := ⟨0, [], [], [], [], none, 5, 1, [], false⟩

def c5pkt : Pkt := ⟨MT_UPDATES, 9, 3, [0, 0], [7]⟩

/-- C5 (counterexample).  An UPDATES packet whose payload parses to an
EMPTY update list is dropped without a single UPDATES_ACK, although a
fragment sequence (7) was delivered: `if updates:` is falsy on an empty
deque, so duplicate-suppression ACKs are never sent for empty updates. -/
theorem C5_empty_updates_not_acked :
    parse_updates_payload c5pkt.payload = some [] ∧
    c5pkt.seq_keys = [7] ∧
    handle_updates c5state ts0 c5pkt = (c5state, [], .ok ()) :=
  ⟨by decide, rfl, rfl⟩

def c5wstate : CState := ⟨0, [0, 0, 0, 0], [], [], [], some 2, 5, 1, [], false⟩

def c5wpkt : Pkt := ⟨MT_UPDATES, 9, 1, build_updates_payload [(0, 1, 2)], [7]⟩

/-- C5 (witness).  The amended theorem applied to a one-update packet one
snapshot ahead of the client. -/
theorem C5_updates_reconciliation_witness :
    c5wstate.islogging = false ∧
    parse_updates_payload c5wpkt.payload = some [(0, 1, 2)] ∧
    ([(0, 1, 2)] : List (Nat × Nat × Nat)) ≠ [] ∧
    (∀ k ∈ c5wpkt.seq_keys, 1 ≤ k) ∧
    handle_updates c5wstate ts0 c5wpkt =
      (let required : Int :=
        (c5wpkt.snapshot_id : Int) - (c5wstate.snapshot_id : Int)
       let st1 : CState :=
         if 0 < required ∧
             required ≤ (([(0, 1, 2)] : List (Nat × Nat × Nat)).length : Int) then
           let applied := (takeLast required.toNat [(0, 1, 2)]).foldl
             (fun s u => client_update_cell s u.1 u.2.1 u.2.2) c5wstate
           { applied with snapshot_id := c5wpkt.snapshot_id }
         else c5wstate
       ({ st1 with
           seq := st1.seq + 2 * c5wpkt.seq_keys.length,
           pkt_id := st1.pkt_id + c5wpkt.seq_keys.length },
         c5wpkt.seq_keys, .ok ())) :=
  ⟨rfl, by decide, by decide, by decide,
   C5_updates_reconciliation c5wstate ts0 c5wpkt [(0, 1, 2)] rfl (by decide)
     (by decide) (by decide)⟩

def c6pkt : Pkt := ⟨MT_CREATE_ROOM, 1, 0, [65], [1]⟩

/-- C6 (refuting the spec).  `handle_create_room` performs no registration
check: a CREATE_ROOM from the unregistered address 7 stores a fresh room
in the room table (and, because no CREATE_ACK could be sent, leaves
`next_room_id` unchanged), instead of being silently dropped. -/
theorem C6_unregistered_create_room_mutates :
    dlookup initialSState.addr_to_player 7 = none ∧
    (handle_create_room initialSState ts0 c6pkt 7).1.rooms =
      [(1, freshRoom 1 [65])] ∧
    (handle_create_room initialSState ts0 c6pkt 7).1.next_room_id = 1 ∧
    (handle_create_room initialSState ts0 c6pkt 7).2 = .ok () :=
  ⟨rfl, rfl, rfl, rfl⟩

def c7room : Room := ⟨1, [65], 2, [(1, ⟨1, (0, 0, 0)⟩)], [], []⟩

def c7entry : UnackedEntry := ⟨.num 7, MT_SNAPSHOT, 0⟩

def c7state : SState :=
  { initialSState with
      next_player_id := 2,
      players := [(1, ⟨3, 1, 1⟩)],
      addr_to_player := [(3, 1)],
      rooms := [(1, c7room)],
      seq := [(1, 7)],
      unacked_packets := [((5, 1), c7entry)] }

def c7pkt : Pkt := ⟨MT_SNAPSHOT_ACK, 99, 0, be4 5, [99]⟩

def c7pkt2 : Pkt := ⟨MT_SNAPSHOT_ACK, 5, 0, be4 5, [5]⟩

/-- C7 (refuting the spec).  `handle_snapshot_ack` rebinds the lookup key
to the ACK packet's own header sequence (`seq = pkt['seq']`), so an ACK
whose payload names the outstanding fragment sequence 5 matches nothing
and the unacked entry survives; and even when the header sequence happens
to equal the stored key, the handler re-parses the stored tuple item and
raises `TypeError`, so the entry is never removed and the fresh-SNAPSHOT
resend is unreachable. -/
theorem C7_snapshot_ack_never_clears :
    parse_snapshot_ack_payload c7pkt.payload = some 5 ∧
    dlookup c7state.unacked_packets (5, 1) = some c7entry ∧
    handle_snapshot_ack c7state c7pkt 3 = (c7state, .ok ()) ∧
    handle_snapshot_ack c7state c7pkt2 3 = (c7state, .error .typeErr) ∧
    dlookup (handle_snapshot_ack c7state c7pkt 3).1.unacked_packets (5, 1) =
      some c7entry :=
  ⟨rfl, rfl, rfl, rfl, rfl⟩

def c8pkt : Pkt := ⟨MT_INIT, 1, 0, [], [1]⟩

/-- C8 (counterexample).  An INIT answered through the real send path
leaves `unacked_packets` empty: `handle_init` sends INIT_ACK with the
default `ack=False`, so the reply is never entered for retransmission. -/
theorem C8_init_ack_not_stored :
    (handle_init initialSState ts0 c8pkt 3).1.unacked_packets = [] ∧
    (handle_init initialSState ts0 c8pkt 3).1.next_player_id = 2 ∧
    dlookup (handle_init initialSState ts0 c8pkt 3).1.players 1 =
      some ⟨3, 0, 0⟩ :=
  ⟨rfl, rfl, rfl⟩

/-- C8 (amended).  INIT allocates the next player id, registers the peer
entry and the per-peer sequence counter at 1, and CREATE_ROOM from any
sender stores the named room without auto-joining the creator (the fresh
room has no players and the registry is untouched), but BOTH replies are
sent fire-and-forget: the unacked table is never written, so neither
INIT_ACK nor CREATE_ACK is retransmitted, against the reliability the
spec promises. -/
theorem C8_init_create_unreliable (st : SState) (ts : Nat → Nat)
    (pkt pkt' : Pkt) (addr addr' : Nat) :
    (handle_init st ts pkt addr).1.unacked_packets = st.unacked_packets ∧
    dlookup (handle_init st ts pkt addr).1.players st.next_player_id =
      some ⟨addr, 0, 0⟩ ∧
    dlookup (handle_init st ts pkt addr).1.addr_to_player addr =
      some st.next_player_id ∧
    (pkt.seq_keys = [] →
      dlookup (handle_init st ts pkt addr).1.seq st.next_player_id = some 1) ∧
    (handle_create_room st ts pkt' addr').1.unacked_packets =
      st.unacked_packets ∧
    (handle_create_room st ts pkt' addr').1.players = st.players ∧
    (validUtf8 pkt'.payload = true →
      dlookup (handle_create_room st ts pkt' addr').1.rooms st.next_room_id =
        some (freshRoom st.next_room_id pkt'.payload)) := by
  have hi := handle_init_shape st ts pkt addr
  have hc := handle_create_room_shape st ts pkt' addr'
  refine ⟨hi.2.2.2.2.1, ?_, ?_, hi.2.2.2.2.2, hc.2.2.2.1, hc.1, ?_⟩
  · rw [hi.1]; exact dlookup_dset_self _ _ _
  · rw [hi.2.1]; exact dlookup_dset_self _ _ _
  · intro hv
    rw [hc.2.2.2.2.1 hv]
    exact dlookup_dset_self _ _ _

def c8wpkt : Pkt := ⟨MT_INIT, 1, 0, [], []⟩

def c8wpkt2 : Pkt := ⟨MT_CREATE_ROOM, 1, 0, [65], []⟩

/-- C8 (witness).  The amended theorem applied to the initial state. -/
theorem C8_init_create_unreliable_witness :
    c8wpkt.seq_keys = [] ∧ validUtf8 c8wpkt2.payload = true ∧
    dlookup (handle_init initialSState ts0 c8wpkt 3).1.seq 1 = some 1 ∧
    dlookup (handle_create_room initialSState ts0 c8wpkt2 7).1.rooms 1 =
      some (freshRoom 1 [65]) ∧
    (handle_init initialSState ts0 c8wpkt 3).1.unacked_packets =
      initialSState.unacked_packets :=
  ⟨rfl, by decide,
   (C8_init_create_unreliable initialSState ts0 c8wpkt c8wpkt2 3 7).2.2.2.1 rfl,
   (C8_init_create_unreliable initialSState ts0 c8wpkt c8wpkt2 3 7).2.2.2.2.2.2
     (by decide),
   (C8_init_create_unreliable initialSState ts0 c8wpkt c8wpkt2 3 7).1⟩

/-- C9 (amended).  `handle_join_room` never writes any room other than the
one being joined: a member of room A who joins room B keeps its entry in
the player map of A (only the registry's `room_id` moves on), so the
one-room-per-player invariant of the spec fails, as
`C9_player_in_two_rooms` replays from the initial state. -/
theorem C9_join_leaves_old_membership (st : SState) (ts : Nat → Nat)
    (color : Nat × Nat × Nat) (pkt : Pkt) (addr : Nat)
    (ridJ rid_old : Nat) (roomA : Room)
    (hp : parse_join_room_payload pkt.payload = some ridJ)
    (hne : rid_old ≠ ridJ)
    (hA : dlookup st.rooms rid_old = some roomA) :
    dlookup (handle_join_room st ts color pkt addr).1.rooms rid_old =
      some roomA := by
  rcases handle_join_room_rooms st ts color pkt addr with
    h | ⟨ridJ', room0, lid, pid, hp', hr0, h⟩
  · rw [h]; exact hA
  · rw [hp] at hp'
    have hJ : ridJ = ridJ' := Option.some.inj hp'
    rw [h, dlookup_dset_ne _ _ _ _ (hJ ▸ hne)]
    exact hA

def c9pktInit : Pkt := ⟨MT_INIT, 1, 0, [], []⟩

def c9pktCreateA : Pkt := ⟨MT_CREATE_ROOM, 1, 0, [65], []⟩

def c9pktCreateB : Pkt := ⟨MT_CREATE_ROOM, 1, 0, [66], []⟩

def c9pktJoinA : Pkt := ⟨MT_JOIN_ROOM, 1, 0, [1], []⟩

def c9pktJoinB : Pkt := ⟨MT_JOIN_ROOM, 1, 0, [2], []⟩

def c9s1 : SState := (handle_init initialSState ts0 c9pktInit 3).1
def c9s2 : SState := (handle_create_room c9s1 ts0 c9pktCreateA 3).1
def c9s3 : SState := (handle_join_room c9s2 ts0 (0, 0, 0) c9pktJoinA 3).1
def c9s4 : SState := (handle_create_room c9s3 ts0 c9pktCreateB 3).1
def c9s5 : SState := (handle_join_room c9s4 ts0 (0, 0, 0) c9pktJoinB 3).1

/-- C9 (counterexample).  A reachable run: player 1 creates and joins room
1, then creates and joins room 2.  Afterwards its global id sits in the
player maps of BOTH rooms while the registry points at room 2, violating
the at-most-one-room invariant of the spec on a reachable state. -/
theorem C9_player_in_two_rooms :
    SStep .initMsg initialSState c9s1 ∧ SStep .createRoom c9s1 c9s2 ∧
    SStep .joinRoom c9s2 c9s3 ∧ SStep .createRoom c9s3 c9s4 ∧
    SStep .joinRoom c9s4 c9s5 ∧
    (dlookup c9s5.rooms 1).map
      (fun r => (dlookup r.players 1).map (fun p => p.global_id)) =
      some (some 1) ∧
    (dlookup c9s5.rooms 2).map
      (fun r => (dlookup r.players 1).map (fun p => p.global_id)) =
      some (some 1) ∧
    (dlookup c9s5.players 1).map (fun pi => pi.room_id) = some 2 :=
  ⟨SStep.initMsg initialSState ts0 c9pktInit 3,
   SStep.createRoom c9s1 ts0 c9pktCreateA 3,
   SStep.joinRoom c9s2 ts0 (0, 0, 0) c9pktJoinA 3,
   SStep.createRoom c9s3 ts0 c9pktCreateB 3,
   SStep.joinRoom c9s4 ts0 (0, 0, 0) c9pktJoinB 3,
   by decide, by decide, by decide⟩

def c9wroomA : Room := freshRoom 1 [65]

def c9wstate : SState :=
  { initialSState with rooms := [(1, c9wroomA), (2, freshRoom 2 [66])] }

def c9wpkt : Pkt := ⟨MT_JOIN_ROOM, 1, 0, [2], []⟩

/-- C9 (witness).  The amended theorem applied to a two-room state. -/
theorem C9_join_leaves_old_membership_witness :
    parse_join_room_payload c9wpkt.payload = some 2 ∧ (1 : Nat) ≠ 2 ∧
    dlookup c9wstate.rooms 1 = some c9wroomA ∧
    dlookup (handle_join_room c9wstate ts0 (0, 0, 0) c9wpkt 9).1.rooms 1 =
      some c9wroomA :=
  ⟨rfl, by decide, rfl,
   C9_join_leaves_old_membership c9wstate ts0 (0, 0, 0) c9wpkt 9 2 1 c9wroomA
     rfl (by decide) rfl⟩

/-- C10.  Every `send` with `msg_type = UPDATES` that reaches the transmit
loop (registered peer with a sequence counter, and a positive repeat or
`ack=True`) raises `TypeError` at the metrics-logging call and aborts
before the per-peer sequence counter is advanced. -/
theorem C10_updates_send_raises (st : SState) (ts : Nat → Nat)
    (addr : Nat) (payload : List Nat) (pid s0 : Nat) (ack : Bool) (rep : Nat)
    (ha : dlookup st.addr_to_player addr = some pid)
    (hs : dlookup st.seq pid = some s0)
    (hrep : 1 ≤ rep ∨ ack = true) :
    (srv_send st ts MT_UPDATES addr payload ack rep).2 = .error .typeErr ∧
    (srv_send st ts MT_UPDATES addr payload ack rep).1.seq = st.seq := by
  have hcond : ¬ (if ack then 1 else rep) < 1 := by
    cases ack
    · simp only [Bool.false_eq_true, if_false]
      rcases hrep with h | h
      · omega
      · cases h
    · simp
  unfold srv_send
  dsimp only
  rw [if_neg hcond]
  simp only [ha, hs, if_true]
  cases ack <;> simp

def c10state : SState :=
  { initialSState with addr_to_player := [(3, 1)], seq := [(1, 5)] }

/-- C10 (witness).  The theorem applied to a registered peer. -/
theorem C10_updates_send_raises_witness :
    dlookup c10state.addr_to_player 3 = some 1 ∧
    dlookup c10state.seq 1 = some 5 ∧
    ((1 : Nat) ≤ 1 ∨ (false : Bool) = true) ∧
    (srv_send c10state ts0 MT_UPDATES 3 [] false 1).2 = .error .typeErr ∧
    (srv_send c10state ts0 MT_UPDATES 3 [] false 1).1.seq = c10state.seq :=
  ⟨rfl, rfl, Or.inl (by decide),
   (C10_updates_send_raises c10state ts0 3 [] 1 5 false 1 rfl rfl
     (Or.inl (by decide))).1,
   (C10_updates_send_raises c10state ts0 3 [] 1 5 false 1 rfl rfl
     (Or.inl (by decide))).2⟩

def c3wroom : Room := ⟨1, [65], 1, [], [0, 7], []⟩

def c3wstate : SState := { initialSState with rooms := [(1, c3wroom)] }

/-- C3 (witness).  The amended theorem applied to a one-room state and a
disconnect step from an unknown address. -/
theorem C3_grid_monotone_witness :
    dlookup c3wstate.rooms 1 = some c3wroom ∧ c3wroom.grid.getD 1 0 ≠ 0 ∧
    ((StepKind.disconnect = StepKind.createRoom ∧
        (1 : Nat) = c3wstate.next_room_id) ∨
      ∃ room', dlookup (handle_disconnect c3wstate 99).rooms 1 = some room' ∧
        room'.grid.getD 1 0 = c3wroom.grid.getD 1 0) :=
  ⟨rfl, by decide,
   C3_grid_monotone_amended .disconnect c3wstate (handle_disconnect c3wstate 99)
     (SStep.disconnect c3wstate 99) 1 c3wroom rfl 1 (by decide)⟩
